import Mathlib

/-!
Shallow embedding of the diagnosis/confidence-scoring subsystem of the
telemedicine assistant repository (diagnosis engine, symptom severity engine,
medication recommender), together with proofs of its specified properties.

Python floats are modelled as rationals, Python dicts as insertion-ordered
association lists, and the two fuzzy-string third-party primitives
(fuzzywuzzy partial ratio, regex text extraction) as oracle function
parameters: the control flow around them is embedded exactly, their internals
are not needed by any property below.
-/

namespace Chatbot

/- ### String utilities (Python `needle in hay`, `str.split()`, `str.title()`) -/

/-- Is `n` a leading segment of `h`?  (character-list version) -/
def charsPre : List Char → List Char → Bool
  | [], _ => true
  | _ :: _, [] => false
  | c :: cs, d :: ds => c == d && charsPre cs ds

/-- Does `needle` occur contiguously inside `hay`?  (character-list version) -/
def charsSub (needle : List Char) : List Char → Bool
  | [] => needle.isEmpty
  | d :: ds => charsPre needle (d :: ds) || charsSub needle ds

/-- Python `needle in hay` on strings: contiguous-substring test. -/
def substrB (needle hay : String) : Bool :=
  charsSub needle.data hay.data

/-- Python `str.split()`: split on whitespace, dropping empty pieces. -/
def pySplit (s : String) : List String :=
  (s.split (fun c => c.isWhitespace)).filter (fun w => !w.isEmpty)

/-- Python `str.lower()` (ASCII behaviour), implemented by structural
recursion so that concrete instances evaluate inside the kernel. -/
def pyLower (s : String) : String :=
  ⟨s.data.map Char.toLower⟩

/-- Drop leading whitespace from a character list. -/
def dropWs : List Char → List Char
  | [] => []
  | c :: t => if c.isWhitespace then dropWs t else c :: t

/-- Python `str.strip()`: remove whitespace from both ends. -/
def pyStrip (s : String) : String :=
  ⟨(dropWs ((dropWs s.data).reverse)).reverse⟩

/-- One step of Python `str.title()`: the Bool records whether the previous
character was alphabetic. -/
def titleChars : Bool → List Char → List Char
  | _, [] => []
  | prevAlpha, c :: cs =>
    (if c.isAlpha then (if prevAlpha then c.toLower else c.toUpper) else c) ::
      titleChars c.isAlpha cs

/-- Python `str.title()` (ASCII behaviour). -/
def titleStr (s : String) : String :=
  ⟨titleChars false s.data⟩

/- ### Insertion-ordered association lists (Python dict semantics) -/

/-- Python `d.get(k)`. -/
def alistFind {β : Type} (l : List (String × β)) (k : String) : Option β :=
  match l with
  | [] => none
  | p :: t => if k = p.1 then some p.2 else alistFind t k

/-- Python `d[k] = f(d.get(k))`: update in place if the key exists
(keeping its position), otherwise append at the end. -/
def alistUpd {β : Type} (l : List (String × β)) (k : String) (f : Option β → β) :
    List (String × β) :=
  match l with
  | [] => [(k, f none)]
  | p :: t => if k = p.1 then (k, f (some p.2)) :: t else p :: alistUpd t k f

/-- Python `d[k] = d.get(k, 0) + v` on a float-valued dict. -/
def updAdd (l : List (String × ℚ)) (k : String) (v : ℚ) : List (String × ℚ) :=
  alistUpd l k (fun o => o.getD 0 + v)

/- ### Severity engine (`utils/symptom_severity.py`) -/

/-- `SymptomSeverityEngine.severity_weights`. -/
def severity_weights : List (String × ℚ) :=
  [("mild", 3/10), ("moderate", 6/10), ("severe", 9/10), ("critical", 1)]

/-- The duration factor of `calculate_symptom_score`.  The source guards the
whole block with Python truthiness (`if duration_days:`), so a duration of
`None` or `0` leaves the factor at `1.0`. -/
def durationFactorOf : Option ℕ → ℚ
  | none => 1
  | some d =>
    if d = 0 then 1
    else if 7 ≤ d then 12/10
    else if 3 ≤ d then 11/10
    else if d ≤ 1 then 9/10
    else 1

/-- `SymptomSeverityEngine.calculate_symptom_score`.  (The `symptom`
argument is unused, exactly as in the source.) -/
def calculate_symptom_score (symptom severity : String) (duration_days : Option ℕ) : ℚ :=
  let base_score := (alistFind severity_weights (pyLower severity)).getD (1/2)
  base_score * durationFactorOf duration_days

/-- Per-symptom information carried through `diagnose` (the dict stored in
`symptom_scores[symptom]`). -/
structure SymInfo where
  severity : String
  duration_days : Option ℕ
  score : ℚ
deriving Repr, DecidableEq

/-- Result record of `analyze_symptom_pattern`. -/
structure PatternAnalysis where
  risk_level : String
  total_severity_score : ℚ
  average_severity : ℚ
  critical_symptoms_count : ℕ
  severe_symptoms_count : ℕ
  symptom_count : ℕ
deriving Repr, DecidableEq

/-- `SymptomSeverityEngine.analyze_symptom_pattern`. -/
def analyze_symptom_pattern (scores : List (String × SymInfo)) : PatternAnalysis :=
  let total := (scores.map (fun p => p.2.score)).sum
  let avg : ℚ := if scores.length = 0 then 0 else total / scores.length
  let crit := scores.countP (fun p => pyLower p.2.severity == "critical")
  let sev := scores.countP (fun p => pyLower p.2.severity == "severe")
  let risk :=
    if 0 < crit ∨ 8/10 < avg then "critical"
    else if 1 < sev ∨ 7/10 < avg then "high"
    else if 0 < sev ∨ 5/10 < avg then "moderate"
    else "low"
  ⟨risk, total, avg, crit, sev, scores.length⟩

/-- `SymptomSeverityEngine.normalize_symptom_name`: the variation table. -/
def symptom_map : List (String × String) :=
  [("head ache", "headache"),
   ("stomach pain", "abdominal pain"),
   ("belly pain", "abdominal pain"),
   ("stomach ache", "abdominal pain"),
   ("shortness of breath", "breathing difficulty"),
   ("difficulty breathing", "breathing difficulty"),
   ("breathlessness", "breathing difficulty"),
   ("skin rash", "rash"),
   ("joint ache", "joint pain"),
   ("muscle pain", "joint pain"),
   ("sore throat", "throat pain"),
   ("runny nose", "nasal congestion"),
   ("stuffy nose", "nasal congestion")]

/-- `SymptomSeverityEngine.normalize_symptom_name`. -/
def normalize_symptom_name (symptom : String) : String :=
  let symptom_lower := pyStrip (pyLower symptom)
  (alistFind symptom_map symptom_lower).getD symptom_lower

/-- `SymptomSeverityEngine.symptom_importance`. -/
def symptom_importance : List (String × List (String × ℚ)) :=
  [("fever",
    [("malaria", 9/10), ("dengue", 9/10), ("typhoid", 8/10), ("common cold", 6/10),
     ("chicken pox", 7/10)]),
   ("headache",
    [("migraine", 9/10), ("hypertension", 7/10), ("common cold", 4/10), ("dengue", 6/10)]),
   ("chest pain",
    [("heart attack", 95/100), ("gerd", 7/10), ("bronchial asthma", 6/10)]),
   ("abdominal pain",
    [("peptic ulcer disease", 9/10), ("gastroenteritis", 8/10), ("gerd", 6/10)]),
   ("breathing difficulty",
    [("bronchial asthma", 95/100), ("pneumonia", 9/10), ("heart attack", 8/10)]),
   ("nausea",
    [("gastroenteritis", 8/10), ("migraine", 7/10), ("gerd", 6/10), ("hepatitis a", 7/10)]),
   ("vomiting",
    [("gastroenteritis", 9/10), ("migraine", 8/10), ("gerd", 7/10)]),
   ("diarrhea",
    [("gastroenteritis", 9/10), ("peptic ulcer disease", 6/10)]),
   ("cough",
    [("common cold", 8/10), ("bronchial asthma", 8/10), ("pneumonia", 8/10)]),
   ("joint pain",
    [("arthritis", 9/10), ("osteoarthritis", 9/10)]),
   ("rash",
    [("allergy", 9/10), ("psoriasis", 8/10), ("chicken pox", 9/10), ("impetigo", 8/10)])]

/-- The accumulating loop of `calculate_enhanced_confidence`: returns
(symptom_boost, total_symptom_weight, important_symptoms_present,
explanation_parts). -/
def enhancedScan (disease : String) (symptom_scores : List (String × SymInfo)) :
    ℚ × ℚ × ℕ × List String :=
  symptom_scores.foldl
    (fun acc p =>
      let ns := normalize_symptom_name p.1
      match alistFind symptom_importance ns with
      | none => acc
      | some tbl =>
        let rel := (alistFind tbl (pyLower disease)).getD 0
        if 0 < rel then
          let boost := acc.1 + p.2.score * rel
          let weight := acc.2.1 + rel
          if 7/10 < rel then
            (boost, weight, acc.2.2.1 + 1, acc.2.2.2 ++ [p.1 ++ " (" ++ p.2.severity ++ ")"])
          else
            (boost, weight, acc.2.2.1, acc.2.2.2)
        else acc)
    (0, 0, 0, [])

/-- `SymptomSeverityEngine.calculate_enhanced_confidence`. -/
def calculate_enhanced_confidence (base_confidence : ℚ)
    (symptom_scores : List (String × SymInfo)) (disease : String) : ℚ × String :=
  let scan := enhancedScan disease symptom_scores
  let symptom_boost := scan.1
  let total_symptom_weight := scan.2.1
  let important := scan.2.2.1
  let parts := scan.2.2.2
  let normalized_boost : ℚ :=
    if 0 < total_symptom_weight ∧ 0 < symptom_boost then
      min (symptom_boost / total_symptom_weight * (3/10))
        (min (base_confidence * (2/10)) (2/10))
    else 0
  let enhanced := min (base_confidence + normalized_boost) 1
  let explanation :=
    if 0 < important then
      "Enhanced by " ++ toString important ++ " key symptom(s): " ++
        String.intercalate ", " (parts.take 3)
    else "Based on symptom pattern matching"
  (enhanced, explanation)

/- ### Diagnosis results (`attached_assets/diagnosis_engine_*.py`) -/

/-- One entry of the list returned by `DiagnosisEngine.diagnose`.  The
generic-fallback path builds dicts without the `base_confidence`,
`explanation`, `method` and `symptom_analysis` keys, which are therefore
optional here. -/
structure DiagResult where
  disease : String
  confidence : ℚ
  base_confidence : Option ℚ
  explanation : Option String
  method : Option String
  precautions : List String
  symptom_analysis : Option PatternAnalysis
deriving Repr, DecidableEq

/-- The "Common Cold" entry of `_get_generic_diagnosis`. -/
def commonColdResult : DiagResult :=
  ⟨"Common Cold", 6/10, none, none, none,
    ["rest", "drink plenty of fluids", "consult doctor if symptoms persist"], none⟩

/-- The "Gastroenteritis" entry of `_get_generic_diagnosis`. -/
def gastroenteritisResult : DiagResult :=
  ⟨"Gastroenteritis", 5/10, none, none, none,
    ["stay hydrated", "eat light foods", "rest", "consult doctor"], none⟩

/-- The "General Pain/Inflammation" entry of `_get_generic_diagnosis`. -/
def generalPainResult : DiagResult :=
  ⟨"General Pain/Inflammation", 4/10, none, none, none,
    ["rest", "apply ice/heat", "consult doctor", "avoid strenuous activity"], none⟩

/-- The "Unspecified Condition" entry of `_get_generic_diagnosis`. -/
def unspecifiedResult : DiagResult :=
  ⟨"Unspecified Condition", 3/10, none, none, none,
    ["consult a healthcare provider", "monitor symptoms", "rest", "stay hydrated"], none⟩

/-- `DiagnosisEngine._get_generic_diagnosis`. -/
def get_generic_diagnosis (symptoms : List String) : List DiagResult :=
  let symptom_text := pyLower (String.intercalate " " symptoms)
  let r1 :=
    if ["fever", "headache", "body ache"].any (fun w => substrB w symptom_text)
    then [commonColdResult] else []
  let r2 :=
    if ["stomach", "abdominal", "nausea", "vomiting"].any (fun w => substrB w symptom_text)
    then [gastroenteritisResult] else []
  let r3 :=
    if ["pain", "ache"].any (fun w => substrB w symptom_text)
    then [generalPainResult] else []
  let generic_results := r1 ++ r2 ++ r3
  if generic_results = [] then [unspecifiedResult] else generic_results

/-- One value of the optional `symptom_severities` argument of `diagnose`:
a dict that may omit the `severity` and `duration_days` keys. -/
structure SevInput where
  severity : Option String
  duration_days : Option ℕ
deriving Repr, DecidableEq

/-- Step 1 of `diagnose` when `symptom_severities` is falsy: every symptom
gets severity "moderate" and score 0.5. -/
def defaultSymptomScores (symptoms : List String) : List (String × SymInfo) :=
  symptoms.foldl (fun acc s => alistUpd acc s (fun _ => ⟨"moderate", none, 1/2⟩)) []

/-- Step 1 of `diagnose` when `symptom_severities` is truthy: entries missing
from the dict default to severity "moderate" and duration `None`, scored by
`calculate_symptom_score`. -/
def scoredSymptomScores (symptoms : List String) (sevs : List (String × SevInput)) :
    List (String × SymInfo) :=
  symptoms.foldl
    (fun acc s =>
      let info := (alistFind sevs s).getD ⟨none, none⟩
      let severity := info.severity.getD "moderate"
      let duration := info.duration_days
      let score := calculate_symptom_score s severity duration
      alistUpd acc s (fun _ => ⟨severity, duration, score⟩)) []

/-- Step 1 of `diagnose` (`symptom_scores`): Python truthiness makes both a
missing and an empty severities dict take the default branch. -/
def computeSymptomScores (symptoms : List String)
    (symptom_severities : Option (List (String × SevInput))) : List (String × SymInfo) :=
  match symptom_severities with
  | some l => if l = [] then defaultSymptomScores symptoms else scoredSymptomScores symptoms l
  | none => defaultSymptomScores symptoms

/- ### Diagnosis engine data and environment -/

/-- One entry of the symptom-to-disease mapping built by
`DiagnosisEngine._build_symptom_mapping`: entries appended while scanning
medicine uses carry the medicine name and confidence 0.7, entries appended
from the precaution table carry the disease name and confidence 1.0. -/
inductive SourceInfo where
  | medicineUse (medicine : String) (confidence : ℚ)
  | directDisease (disease : String) (confidence : ℚ)
deriving Repr, DecidableEq

/-- The confidence stored in a mapping entry. -/
def SourceInfo.conf : SourceInfo → ℚ
  | .medicineUse _ c => c
  | .directDisease _ c => c

/-- Is this the `direct_disease` kind of mapping entry? -/
def SourceInfo.isDirect : SourceInfo → Bool
  | .medicineUse _ _ => false
  | .directDisease _ _ => true

/-- A row of the medicine table (the columns read by the diagnosis engine
and the medication recommender). -/
structure MedicineRow where
  name : String
  composition : String
  uses : String
  side_effects : String
  manufacturer : String
  excellent_review : ℚ
  average_review : ℚ
  poor_review : ℚ
deriving Repr, DecidableEq

/-- A row of the precaution table as consumed by `_build_symptom_mapping`
(only the `Disease` column is read there; the per-disease precaution lookup
reads the other columns, and is an oracle of the environment below). -/
structure PrecRow where
  disease : String
deriving Repr, DecidableEq

/-- One ML prediction returned by `MLDiagnosisModel.predict_disease`. -/
structure MLPred where
  disease : String
  confidence : ℚ
  method : String
deriving Repr, DecidableEq

/-- The collaborators of `DiagnosisEngine`: its data tables, the trained
classifier and the fuzzy/regex text primitives. `sim` is fuzzywuzzy's
`fuzz.partial_ratio`, `extractConditions` is the regex helper
`_extract_conditions_from_text`, `extractDiseasesFromUses` the regex helper
`_extract_diseases_from_uses`, `mlPredict` the trained classifier
(`predict_disease`, an empty list when it raised) and `getPrecautions` the
exact-then-fuzzy precaution lookup `_get_disease_precautions`; their
internals are not needed by any property below, so they are oracles. -/
structure DiagEnv where
  medicines : Option (List MedicineRow)
  precautionRows : Option (List PrecRow)
  extractConditions : String → List String
  extractDiseasesFromUses : String → List String
  mlPredict : List String → List MLPred
  getPrecautions : String → List String
  sim : String → String → ℕ

/-- `DiagnosisEngine._build_symptom_mapping`. -/
def buildSymptomMapping (env : DiagEnv) : List (String × List SourceInfo) :=
  let m1 : List (String × List SourceInfo) :=
    match env.medicines with
    | none => []
    | some rows =>
      rows.foldl
        (fun acc row =>
          let uses := pyLower row.uses
          (env.extractConditions uses).foldl
            (fun a condition =>
              alistUpd a condition
                (fun o => o.getD [] ++ [.medicineUse row.name (7/10)]))
            acc)
        []
  match env.precautionRows with
  | none => m1
  | some rows =>
    rows.foldl
      (fun acc row =>
        let disease := pyStrip (pyLower row.disease)
        if disease = "" then acc
        else alistUpd acc disease (fun o => o.getD [] ++ [.directDisease row.disease 1]))
      m1

/-- The inner loop of the fuzzy signal of `diagnose`: only `direct_disease`
entries contribute, each adding `(similarity/100) * confidence`. -/
def addDirectInfos (simv : ℕ) (infos : List SourceInfo) (acc : List (String × ℚ)) :
    List (String × ℚ) :=
  infos.foldl
    (fun a info =>
      match info with
      | .directDisease disease conf => updAdd a disease ((simv : ℚ)/100 * conf)
      | .medicineUse _ _ => a)
    acc

/-- Method 1 of `diagnose` (fuzzy direct symptom matching, threshold 60). -/
def method1Scores (mapping : List (String × List SourceInfo)) (sim : String → String → ℕ)
    (symptoms : List String) : List (String × ℚ) :=
  mapping.foldl
    (fun acc kv =>
      symptoms.foldl
        (fun a symptom =>
          let similarity := sim (pyLower symptom) kv.1
          if 60 < similarity then addDirectInfos similarity kv.2 a else a)
        acc)
    []

/-- The static keyword-to-diseases table of method 2 of `diagnose`. -/
def keyword_disease_map : List (String × List String) :=
  [("headache", ["Migraine", "Hypertension", "Common Cold"]),
   ("fever", ["Malaria", "Dengue", "Typhoid", "Common Cold", "Chicken pox"]),
   ("nausea", ["GERD", "Gastroenteritis", "Migraine", "Hepatitis A"]),
   ("vomiting", ["Gastroenteritis", "GERD", "Migraine"]),
   ("diarrhea", ["Gastroenteritis", "Peptic ulcer disease"]),
   ("cough", ["Common Cold", "Bronchial Asthma", "Pneumonia"]),
   ("pain", ["Arthritis", "Peptic ulcer disease"]),
   ("rash", ["Allergy", "Psoriasis", "Chicken pox", "Impetigo"]),
   ("breathing", ["Bronchial Asthma", "Pneumonia", "Heart attack"]),
   ("chest pain", ["Heart attack", "GERD"]),
   ("joint pain", ["Arthritis", "Osteoarthritis"]),
   ("abdominal pain", ["Peptic ulcer disease", "Gastroenteritis"]),
   ("back pain", ["Osteoarthritis", "Cervical spondylosis"])]

/-- Method 2 of `diagnose` (keyword matching, flat 0.8), continuing from the
scores of method 1. -/
def method2Scores (symptoms : List String) (acc0 : List (String × ℚ)) :
    List (String × ℚ) :=
  keyword_disease_map.foldl
    (fun acc kv =>
      if symptoms.any (fun symptom => substrB kv.1 (pyLower symptom)) then
        kv.2.foldl (fun a disease => updAdd a disease (8/10)) acc
      else acc)
    acc0

/-- Method 3 of `diagnose` (side-effects reverse mapping, 0.3 per matching
symptom), continuing from the scores of method 2. -/
def method3Scores (env : DiagEnv) (symptoms : List String) (acc0 : List (String × ℚ)) :
    List (String × ℚ) :=
  match env.medicines with
  | none => acc0
  | some rows =>
    rows.foldl
      (fun acc row =>
        let side_effects := pyLower row.side_effects
        let uses := pyLower row.uses
        let m : ℚ :=
          ((symptoms.filter (fun s => substrB (pyLower s) side_effects)).length : ℚ) * (3/10)
        if 0 < m then
          (env.extractDiseasesFromUses uses).foldl (fun a d => updAdd a d m) acc
        else acc)
      acc0

/-- `disease_scores` after the three matching methods of `diagnose`. -/
def patternScores (env : DiagEnv) (symptoms : List String) : List (String × ℚ) :=
  method3Scores env symptoms
    (method2Scores symptoms (method1Scores (buildSymptomMapping env) env.sim symptoms))

/-- The disease-name synonym table of `diagnose`. -/
def disease_synonyms : List (String × String) :=
  [("gerd", "gastroesophageal reflux disease"),
   ("copd", "chronic obstructive pulmonary disease"),
   ("htn", "hypertension"),
   ("dm", "diabetes mellitus"),
   ("mi", "myocardial infarction"),
   ("peptic ulcer diseae", "peptic ulcer disease"),
   ("osteoarthristis", "osteoarthritis")]

/-- `canonicalize_disease` inside `diagnose`. -/
def canonicalize_disease (disease_name : String) : String :=
  let canonical := pyStrip (pyLower disease_name)
  (alistFind disease_synonyms canonical).getD canonical

/-- The pattern-result canonicalization loop of `diagnose`: seeds
`canonical_scores` with `min score 1` and records display names. -/
def seedCanonical (disease_scores : List (String × ℚ)) :
    List (String × ℚ) × List (String × String) :=
  disease_scores.foldl
    (fun acc p =>
      let canonical := canonicalize_disease p.1
      let normalized_score := min p.2 1
      (updAdd acc.1 canonical normalized_score,
        alistUpd acc.2 canonical (fun _ => p.1)))
    ([], [])

/-- The canonical-score component of one step of the ML-merging loop of
`diagnose`. -/
def mlScoreStep (c : List (String × ℚ)) (pred : MLPred) : List (String × ℚ) :=
  match alistFind c (canonicalize_disease pred.disease) with
  | some v =>
    alistUpd c (canonicalize_disease pred.disease)
      (fun _ => 4/10 * v + 6/10 * pred.confidence)
  | none =>
    alistUpd c (canonicalize_disease pred.disease) (fun _ => 6/10 * pred.confidence)

/-- The ML-merging loop of `diagnose`: weight 0.4 on an existing canonical
score, 0.6 on the ML confidence, fresh insertion at 0.6 of the confidence. -/
def addMLPreds (cs : List (String × ℚ)) (dn : List (String × String))
    (ml_predictions : List MLPred) : List (String × ℚ) × List (String × String) :=
  ml_predictions.foldl
    (fun acc pred =>
      let canonical := canonicalize_disease pred.disease
      match alistFind acc.1 canonical with
      | some v =>
        (alistUpd acc.1 canonical (fun _ => 4/10 * v + 6/10 * pred.confidence), acc.2)
      | none =>
        (alistUpd acc.1 canonical (fun _ => 6/10 * pred.confidence),
          alistUpd acc.2 canonical (fun _ => pred.disease)))
    (cs, dn)

/-- `sorted(canonical_scores.items(), key=score, reverse=True)`: stable
descending sort on the score. -/
def sortedCandidates (cs : List (String × ℚ)) : List (String × ℚ) :=
  cs.mergeSort (fun a b => decide (b.2 ≤ a.2))

/-- The prediction-method classification inside the result loop of
`diagnose`. -/
def methodLabel (canonical : String) (mlNames patternNames : List String) : String :=
  if canonical ∈ mlNames ∧ canonical ∈ patternNames then "hybrid"
  else if canonical ∈ mlNames then "machine_learning"
  else "pattern_matching"

/-- The result-formatting loop body of `diagnose`. -/
def enrichCandidate (env : DiagEnv) (symptom_scores : List (String × SymInfo))
    (display_names : List (String × String)) (mlNames patternNames : List String)
    (cd : String × ℚ) : DiagResult :=
  let display_disease := (alistFind display_names cd.1).getD (titleStr cd.1)
  let ec := calculate_enhanced_confidence (min cd.2 1) symptom_scores display_disease
  { disease := display_disease
    confidence := ec.1
    base_confidence := some (min cd.2 1)
    explanation := some ec.2
    method := some (methodLabel cd.1 mlNames patternNames)
    precautions := env.getPrecautions display_disease
    symptom_analysis := some (analyze_symptom_pattern symptom_scores) }

/-- The merged canonical scores and display names of `diagnose`. -/
def mergedState (env : DiagEnv) (symptoms : List String) :
    List (String × ℚ) × List (String × String) :=
  addMLPreds (seedCanonical (patternScores env symptoms)).1
    (seedCanonical (patternScores env symptoms)).2 (env.mlPredict symptoms)

/-- The enriched top-7 result list of `diagnose` (before the final
truncation to 5). -/
def diagnoseResults (env : DiagEnv) (symptoms : List String)
    (symptom_severities : Option (List (String × SevInput))) : List DiagResult :=
  ((sortedCandidates (mergedState env symptoms).1).take 7).map
    (enrichCandidate env (computeSymptomScores symptoms symptom_severities)
      (mergedState env symptoms).2
      ((env.mlPredict symptoms).map (fun pred => canonicalize_disease pred.disease))
      ((patternScores env symptoms).map (fun p => canonicalize_disease p.1)))

/-- `DiagnosisEngine.diagnose`. -/
def diagnose (env : DiagEnv) (symptoms : List String)
    (symptom_severities : Option (List (String × SevInput))) : List DiagResult :=
  if symptoms = [] then []
  else if (diagnoseResults env symptoms symptom_severities).take 5 = [] then
    get_generic_diagnosis symptoms
  else (diagnoseResults env symptoms symptom_severities).take 5

/- ### Medication recommender (`utils/medication_recommender.py`) -/

/-- One recommended-medication record. -/
structure RecEntry where
  name : String
  composition : String
  uses : String
  side_effects : String
  manufacturer : String
  excellent_review : ℚ
  average_review : ℚ
  poor_review : ℚ
  relevance_score : ℚ
deriving Repr, DecidableEq

/-- Build a `RecEntry` from a medicine row at a given relevance score. -/
def recEntryOf (row : MedicineRow) (score : ℚ) : RecEntry :=
  ⟨row.name, row.composition, row.uses, row.side_effects, row.manufacturer,
    row.excellent_review, row.average_review, row.poor_review, score⟩

/-- Method 1 of `recommend_medications`: literal substring scores 1.0, else
fuzzy partial-ratio / 100; entries are kept when strictly above 0.4. -/
def recMethod1 (sim : String → String → ℕ) (rows : List MedicineRow) (disease : String) :
    List RecEntry :=
  rows.foldl
    (fun acc row =>
      let uses := pyLower row.uses
      let score : ℚ :=
        if substrB (pyLower disease) uses then 1
        else (sim (pyLower disease) uses : ℚ) / 100
      if 2/5 < score then acc ++ [recEntryOf row score] else acc)
    []

/-- The static disease-to-keywords table of `_get_disease_keywords`. -/
def medication_keyword_map : List (String × List String) :=
  [("Common Cold", ["cold", "respiratory", "cough", "congestion"]),
   ("Migraine", ["headache", "pain", "migraine"]),
   ("Hypertension", ["blood pressure", "hypertension", "cardiac"]),
   ("GERD", ["acid", "reflux", "gastro", "stomach"]),
   ("Gastroenteritis", ["gastro", "stomach", "diarrhea", "nausea"]),
   ("Diabetes", ["diabetes", "blood sugar", "glucose"]),
   ("Asthma", ["asthma", "respiratory", "breathing"]),
   ("Arthritis", ["arthritis", "joint", "inflammation", "pain"]),
   ("Allergy", ["allergy", "allergic", "antihistamine"]),
   ("Infection", ["infection", "bacterial", "antibiotic"]),
   ("Pain", ["pain", "analgesic", "anti-inflammatory"])]

/-- `MedicationRecommender._get_disease_keywords`.  The source ends with
`list(set(keywords))`, whose iteration order CPython leaves unspecified; it
is modelled as first-occurrence deduplication.  No property below depends on
that order: every method-2 keyword match contributes the same flat 0.7. -/
def get_disease_keywords (disease : String) : List String :=
  let keywords := (alistFind medication_keyword_map disease).getD []
  (keywords ++ pySplit (pyLower disease)).eraseDups

/-- Method 2 of `recommend_medications`: keyword matches not already in the
list are appended at flat relevance 0.7. -/
def recMethod2 (rows : List MedicineRow) (disease : String) (acc0 : List RecEntry) :
    List RecEntry :=
  (get_disease_keywords disease).foldl
    (fun acc keyword =>
      rows.foldl
        (fun a row =>
          let uses := pyLower row.uses
          if substrB (pyLower keyword) uses ∧ ¬ a.any (fun med => med.name == row.name) then
            a ++ [recEntryOf row (7/10)]
          else a)
        acc)
    acc0

/-- The comparator of the final sort of `recommend_medications`:
descending lexicographic on (relevance_score, excellent_review). -/
def recLe (a b : RecEntry) : Bool :=
  decide (b.relevance_score < a.relevance_score ∨
    (b.relevance_score = a.relevance_score ∧ b.excellent_review ≤ a.excellent_review))

/-- `MedicationRecommender.recommend_medications` (the `age` and `gender`
arguments are accepted and unused, as in the source). -/
def recommend_medications (sim : String → String → ℕ)
    (medicine_data : Option (List MedicineRow)) (disease : String)
    (age : ℕ) (gender : String) : List RecEntry :=
  match medicine_data with
  | none => []
  | some rows =>
    ((recMethod2 rows disease (recMethod1 sim rows disease)).mergeSort recLe).take 10

/- ### Concrete fixtures used by witnesses -/

/-- A similarity oracle: 100 on equal strings, else 0. -/
def simEq : String → String → ℕ := fun a b => if a = b then 100 else 0

/-- A small environment: no medicine table, one precaution row ("Malaria"),
one ML prediction ("Malaria" at confidence 0.5). -/
def envW : DiagEnv :=
  { medicines := none
    precautionRows := some [⟨"Malaria"⟩]
    extractConditions := fun _ => []
    extractDiseasesFromUses := fun _ => []
    mlPredict := fun _ => [⟨"Malaria", 1/2, "machine_learning"⟩]
    getPrecautions := fun _ => []
    sim := simEq }

/-- The single result `diagnose envW ["zzz"] none` produces: the ML-only
candidate "Malaria" at confidence 0.6 * 0.5 = 0.3. -/
def rW : DiagResult :=
  ⟨"Malaria", 3/10, some (3/10), some "Based on symptom pattern matching",
    some "machine_learning", [], some ⟨"low", 1/2, 1/2, 0, 0, 1⟩⟩

/-- A two-row medicine table: one row literally mentioning hypertension in
its uses, one unrelated row. -/
def rowsW : List MedicineRow :=
  [⟨"Amlodipine 5mg", "Amlodipine", "Used in treatment of Hypertension", "dizziness",
    "X Pharma", 40, 30, 30⟩,
   ⟨"Cough Relief Syrup", "dextromethorphan", "relief of cold and cough", "drowsiness",
    "Y Pharma", 80, 10, 10⟩]

/-- A constant similarity oracle below the 100 ceiling. -/
def simW : String → String → ℕ := fun a b => 40

theorem alistFind_alistUpd_self {β : Type} (l : List (String × β)) (k : String)
    (f : Option β → β) : alistFind (alistUpd l k f) k = some (f (alistFind l k)) := by
  induction l with
  | nil => simp [alistUpd, alistFind]
  | cons p t ih =>
    by_cases h : k = p.1
    · simp [alistUpd, alistFind, h]
    · simp [alistUpd, alistFind, h, ih]

theorem alistFind_alistUpd_ne {β : Type} (l : List (String × β)) (k k' : String)
    (f : Option β → β) (hne : k' ≠ k) :
    alistFind (alistUpd l k f) k' = alistFind l k' := by
  induction l with
  | nil => simp [alistUpd, alistFind, hne]
  | cons p t ih =>
    by_cases h : k = p.1
    · subst h
      simp [alistUpd, alistFind, hne]
    · by_cases h' : k' = p.1
      · simp [alistUpd, alistFind, h, h']
      · simp [alistUpd, alistFind, h, h', ih]

/-- Keys present after an update: the updated key plus the old keys. -/
theorem mem_keys_alistUpd {β : Type} (l : List (String × β)) (k : String)
    (f : Option β → β) (c : String) (hc : c ∈ (alistUpd l k f).map Prod.fst) :
    c = k ∨ c ∈ l.map Prod.fst := by
  induction l with
  | nil => simpa [alistUpd] using hc
  | cons p t ih =>
    by_cases h : k = p.1
    · subst h
      rcases (by simpa [alistUpd] using hc) with h' | h'
      · exact Or.inl h'
      · exact Or.inr (by simp [h'])
    · rcases (by simpa [alistUpd, h] using hc) with h' | h'
      · exact Or.inr (by simp [h'])
      · rcases ih (by simpa using h') with h'' | h''
        · exact Or.inl h''
        · exact Or.inr (by simp [h''])

/-- Value-wise invariants survive updates whose new value satisfies them. -/
theorem alistUpd_forall {β : Type} {P : β → Prop} (l : List (String × β))
    (k : String) (f : Option β → β) (hl : ∀ p ∈ l, P p.2)
    (hf : ∀ o, P (f o)) : ∀ p ∈ alistUpd l k f, P p.2 := by
  induction l with
  | nil =>
    intro p hp
    rcases (by simpa [alistUpd] using hp) with h
    simp [h, hf]
  | cons q t ih =>
    intro p hp
    by_cases h : k = q.1
    · rcases (by simpa [alistUpd, h] using hp) with h' | h'
      · rw [h']
        exact hf _
      · exact hl p (by simp [h'])
    · rcases (by simpa [alistUpd, h] using hp) with h' | h'
      · exact hl p (by simp [h'])
      · exact ih (fun q hq => hl q (by simp [hq])) p h'

/-- The duration factor, written the way the specification tabulates it
(amended at duration `0`, which the source treats as unspecified). -/
theorem durationFactorOf_eq (d : Option ℕ) :
    durationFactorOf d =
      (match d with
        | none => 1
        | some n =>
          if n = 1 then (9 : ℚ)/10
          else if n = 0 ∨ n = 2 then 1
          else if 3 ≤ n ∧ n ≤ 6 then 11/10
          else 12/10) := by
  cases d with
  | none => rfl
  | some n =>
    unfold durationFactorOf
    by_cases h0 : n = 0
    · subst h0
      norm_num
    · by_cases h7 : 7 ≤ n
      · have h1 : n ≠ 1 := by omega
        have hn2 : n ≠ 2 := by omega
        have h36 : ¬ (3 ≤ n ∧ n ≤ 6) := by omega
        simp [h0, h7, h1, hn2, h36]
      · by_cases h3 : 3 ≤ n
        · have h1 : n ≠ 1 := by omega
          have hn2 : n ≠ 2 := by omega
          have h6 : n ≤ 6 := by omega
          have hle : ¬ n ≤ 1 := by omega
          simp [h0, h7, h3, h1, hn2, h6, hle]
        · by_cases h1 : n = 1
          · subst h1
            norm_num
          · have h2 : n = 2 := by omega
            subst h2
            norm_num

/-- The risk classification of `analyze_symptom_pattern`, spelled with the
average-severity field of its own result. -/
theorem analyze_risk_eq (scores : List (String × SymInfo)) :
    (analyze_symptom_pattern scores).risk_level =
      (if 0 < scores.countP (fun p => pyLower p.2.severity == "critical") ∨
            8/10 < (analyze_symptom_pattern scores).average_severity then "critical"
        else if 1 < scores.countP (fun p => pyLower p.2.severity == "severe") ∨
            7/10 < (analyze_symptom_pattern scores).average_severity then "high"
        else if 0 < scores.countP (fun p => pyLower p.2.severity == "severe") ∨
            5/10 < (analyze_symptom_pattern scores).average_severity then "moderate"
        else "low") := rfl

/-- Claim C3, counterexample: the specification says the duration factor is
0.9 for durations of at most 1 day, but a duration of 0 days is falsy in the
source (`if duration_days:`), so a moderate symptom of duration 0 scores
0.6 * 1.0, not the claimed 0.6 * 0.9. -/
theorem claim_C3_counterexample :
    ¬ (calculate_symptom_score "fever" "moderate" (some 0) = (6/10 : ℚ) * (9/10)) := by
  with_unfolding_all decide

/-- Claim C3 (amended): `calculate_symptom_score` is pure and equals
severity_weight * duration_factor with weights mild 0.3 / moderate 0.6 /
severe 0.9 / critical 1.0, and duration factor 0.9 for a duration of exactly
1 day, 1.0 for durations of 0 or 2 days or an unspecified duration, 1.1 for
3 to 6 days, and 1.2 for 7 or more days. -/
theorem claim_C3_score (symptom severity : String) (d : Option ℕ)
    (hs : severity = "mild" ∨ severity = "moderate" ∨ severity = "severe" ∨
      severity = "critical") :
    calculate_symptom_score symptom severity d =
      (if severity = "mild" then (3 : ℚ)/10
        else if severity = "moderate" then 6/10
        else if severity = "severe" then 9/10 else 1) *
      (match d with
        | none => 1
        | some n =>
          if n = 1 then (9 : ℚ)/10
          else if n = 0 ∨ n = 2 then 1
          else if 3 ≤ n ∧ n ≤ 6 then 11/10
          else 12/10) := by
  rcases hs with rfl | rfl | rfl | rfl <;>
    · simp only [calculate_symptom_score]
      rw [durationFactorOf_eq]
      congr 1

/-- Witness for claim C3: a mild symptom of duration 1 day scores 0.27. -/
theorem claim_C3_score_witness :
    calculate_symptom_score "fever" "mild" (some 1) = 27/100 := by
  have h := claim_C3_score "fever" "mild" (some 1) (Or.inl rfl)
  rw [h]
  with_unfolding_all decide

/-- Claim C5: `analyze_symptom_pattern` classifies risk as critical iff a
critical-severity symptom exists or the average severity exceeds 0.8;
otherwise high iff more than one severe symptom or average above 0.7;
otherwise moderate iff some severe symptom or average above 0.5; otherwise
low.  For the single symptom "severe chest pain" at severity critical with
duration 1 day the risk level is "critical". -/
theorem claim_C5_risk (scores : List (String × SymInfo)) :
    ((analyze_symptom_pattern scores).risk_level = "critical" ↔
      ((∃ p ∈ scores, pyLower p.2.severity = "critical") ∨
        8/10 < (analyze_symptom_pattern scores).average_severity)) ∧
    ((analyze_symptom_pattern scores).risk_level = "high" ↔
      (¬ ((∃ p ∈ scores, pyLower p.2.severity = "critical") ∨
            8/10 < (analyze_symptom_pattern scores).average_severity) ∧
        (1 < scores.countP (fun p => pyLower p.2.severity == "severe") ∨
          7/10 < (analyze_symptom_pattern scores).average_severity))) ∧
    ((analyze_symptom_pattern scores).risk_level = "moderate" ↔
      (¬ ((∃ p ∈ scores, pyLower p.2.severity = "critical") ∨
            8/10 < (analyze_symptom_pattern scores).average_severity) ∧
        ¬ (1 < scores.countP (fun p => pyLower p.2.severity == "severe") ∨
            7/10 < (analyze_symptom_pattern scores).average_severity) ∧
        ((∃ p ∈ scores, pyLower p.2.severity = "severe") ∨
          5/10 < (analyze_symptom_pattern scores).average_severity))) ∧
    ((analyze_symptom_pattern scores).risk_level = "low" ↔
      (¬ ((∃ p ∈ scores, pyLower p.2.severity = "critical") ∨
            8/10 < (analyze_symptom_pattern scores).average_severity) ∧
        ¬ (1 < scores.countP (fun p => pyLower p.2.severity == "severe") ∨
            7/10 < (analyze_symptom_pattern scores).average_severity) ∧
        ¬ ((∃ p ∈ scores, pyLower p.2.severity = "severe") ∨
            5/10 < (analyze_symptom_pattern scores).average_severity))) ∧
    (analyze_symptom_pattern
        [("severe chest pain",
          ⟨"critical", some 1,
            calculate_symptom_score "severe chest pain" "critical" (some 1)⟩)]).risk_level
      = "critical" := by
  have hcrit : (0 < scores.countP (fun p => pyLower p.2.severity == "critical")) ↔
      (∃ p ∈ scores, pyLower p.2.severity = "critical") := by
    rw [List.countP_pos_iff]
    simp
  have hsev : (0 < scores.countP (fun p => pyLower p.2.severity == "severe")) ↔
      (∃ p ∈ scores, pyLower p.2.severity = "severe") := by
    rw [List.countP_pos_iff]
    simp
  refine ⟨?_, ?_, ?_, ?_, by with_unfolding_all decide⟩
  · rw [analyze_risk_eq]
    simp only [hcrit, hsev]
    split_ifs with h1 h2 h3
    · exact iff_of_true rfl h1
    · exact iff_of_false (by decide) h1
    · exact iff_of_false (by decide) h1
    · exact iff_of_false (by decide) h1
  · rw [analyze_risk_eq]
    simp only [hcrit, hsev]
    split_ifs with h1 h2 h3
    · exact iff_of_false (by decide) (fun h => h.1 h1)
    · exact iff_of_true rfl ⟨h1, h2⟩
    · exact iff_of_false (by decide) (fun h => h2 h.2)
    · exact iff_of_false (by decide) (fun h => h2 h.2)
  · rw [analyze_risk_eq]
    simp only [hcrit, hsev]
    split_ifs with h1 h2 h3
    · exact iff_of_false (by decide) (fun h => h.1 h1)
    · exact iff_of_false (by decide) (fun h => h.2.1 h2)
    · exact iff_of_true rfl ⟨h1, h2, h3⟩
    · exact iff_of_false (by decide) (fun h => h3 h.2.2)
  · rw [analyze_risk_eq]
    simp only [hcrit, hsev]
    split_ifs with h1 h2 h3
    · exact iff_of_false (by decide) (fun h => h.1 h1)
    · exact iff_of_false (by decide) (fun h => h.2.1 h2)
    · exact iff_of_false (by decide) (fun h => h.2.2 h3)
    · exact iff_of_true rfl ⟨h1, h2, h3⟩

/-- Folding per-key updates preserves a value-wise invariant. -/
theorem foldl_alistUpd_forall {β : Type} {P : β → Prop} (symptoms : List String)
    (g : String → Option β → β) (hg : ∀ s o, P (g s o)) :
    ∀ acc, (∀ p ∈ acc, P p.2) →
      ∀ p ∈ symptoms.foldl (fun acc s => alistUpd acc s (g s)) acc, P p.2 := by
  induction symptoms with
  | nil =>
    intro acc hacc p hp
    exact hacc p hp
  | cons s t ih =>
    intro acc hacc p hp
    rw [List.foldl_cons] at hp
    exact ih _ (alistUpd_forall _ _ _ hacc (hg s)) p hp

/-- Folding per-key updates leaves the binding of an untouched key alone. -/
theorem foldl_alistUpd_find_not_mem {β : Type} (t : List String)
    (g : String → Option β → β) (s : String) (hs : s ∉ t) :
    ∀ acc, alistFind (t.foldl (fun acc x => alistUpd acc x (g x)) acc) s =
      alistFind acc s := by
  induction t with
  | nil => intro acc; rfl
  | cons x t ih =>
    intro acc
    rw [List.foldl_cons]
    rw [ih (fun h => hs (List.mem_cons_of_mem _ h)) _]
    exact alistFind_alistUpd_ne _ _ _ _ (fun h => hs (h ▸ List.mem_cons_self x t))

/-- After folding per-key updates whose new value ignores the old one, a key
that was visited is bound to its per-key value. -/
theorem foldl_alistUpd_find_const {β : Type} (symptoms : List String)
    (g : String → β) (s : String) :
    ∀ acc, s ∈ symptoms →
      alistFind (symptoms.foldl (fun acc x => alistUpd acc x (fun _ => g x)) acc) s =
        some (g s) := by
  induction symptoms with
  | nil =>
    intro acc h
    cases h
  | cons x t ih =>
    intro acc hmem
    rw [List.foldl_cons]
    by_cases hst : s ∈ t
    · exact ih _ hst
    · have hsx : s = x := by
        rcases List.mem_cons.mp hmem with h | h
        · exact h
        · exact absurd h hst
      subst hsx
      rw [foldl_alistUpd_find_not_mem t _ s hst _]
      exact alistFind_alistUpd_self _ _ _

/-- Claim C7, counterexample: for symptoms = ["mild headache"] the generic
fallback also emits "General Pain/Inflammation" at confidence 0.4 (because
"ache" occurs inside "headache"), so not every entry is a "Common Cold" or
"Unspecified Condition" result with confidence in 0.3 or 0.6. -/
theorem claim_C7_counterexample :
    ¬ (∀ r ∈ get_generic_diagnosis ["mild headache"],
        (r.disease = "Common Cold" ∨ r.disease = "Unspecified Condition") ∧
        (r.confidence = 3/10 ∨ r.confidence = 6/10)) := by
  with_unfolding_all decide

/-- Claim C7 (amended): if the joined symptom text contains "fever",
"headache" or "body ache" the generic fallback starts with the "Common Cold"
entry at confidence 0.6; if it triggers none of the nine keywords it is
exactly the single "Unspecified Condition" entry at confidence 0.3; for
["mild headache"] it is "Common Cold" (0.6) followed by
"General Pain/Inflammation" (0.4), since "ache" occurs inside "headache". -/
theorem claim_C7_generic :
    (∀ symptoms : List String,
      (∃ w ∈ ["fever", "headache", "body ache"],
          substrB w (pyLower (String.intercalate " " symptoms)) = true) →
      ∃ rest, get_generic_diagnosis symptoms = commonColdResult :: rest) ∧
    (∀ symptoms : List String,
      (∀ w ∈ ["fever", "headache", "body ache", "stomach", "abdominal", "nausea",
          "vomiting", "pain", "ache"],
          substrB w (pyLower (String.intercalate " " symptoms)) = false) →
      get_generic_diagnosis symptoms = [unspecifiedResult]) ∧
    get_generic_diagnosis ["mild headache"] = [commonColdResult, generalPainResult] := by
  refine ⟨?_, ?_, by with_unfolding_all decide⟩
  · intro symptoms h
    have hb : (["fever", "headache", "body ache"].any
        (fun w => substrB w (pyLower (String.intercalate " " symptoms)))) = true := by
      rw [List.any_eq_true]
      exact h
    simp [get_generic_diagnosis, hb]
  · intro symptoms h
    have hf := h "fever" (by simp)
    have hh := h "headache" (by simp)
    have hba := h "body ache" (by simp)
    have hst := h "stomach" (by simp)
    have hab := h "abdominal" (by simp)
    have hna := h "nausea" (by simp)
    have hvo := h "vomiting" (by simp)
    have hpa := h "pain" (by simp)
    have hac := h "ache" (by simp)
    have hb1 : (["fever", "headache", "body ache"].any
        (fun w => substrB w (pyLower (String.intercalate " " symptoms)))) = false := by
      simp [hf, hh, hba]
    have hb2 : (["stomach", "abdominal", "nausea", "vomiting"].any
        (fun w => substrB w (pyLower (String.intercalate " " symptoms)))) = false := by
      simp [hst, hab, hna, hvo]
    have hb3 : (["pain", "ache"].any
        (fun w => substrB w (pyLower (String.intercalate " " symptoms)))) = false := by
      simp [hpa, hac]
    simp [get_generic_diagnosis, hb1, hb2, hb3]

/-- Witness for claim C7: a symptom list triggering no keyword falls back to
the single "Unspecified Condition" entry. -/
theorem claim_C7_generic_witness :
    get_generic_diagnosis ["dizzy"] = [unspecifiedResult] :=
  claim_C7_generic.2.1 ["dizzy"] (by with_unfolding_all decide)

/-- Claim C8, counterexample: when a non-empty severities dict is supplied
but lacks the symptom, the symptom is scored 0.6 (moderate weight 0.6 times
duration factor 1.0), not the claimed 0.5. -/
theorem claim_C8_counterexample :
    ¬ (∀ p ∈ computeSymptomScores ["cough"] (some [("fever", ⟨some "severe", some 2⟩)]),
        p.2.score = 1/2) := by
  with_unfolding_all decide

/-- Claim C8 (amended): with no severities dict, or an empty one, every
symptom gets severity "moderate" with score 0.5; with a non-empty severities
dict missing the symptom, the symptom gets severity "moderate", duration
`None` and score 0.6 via `calculate_symptom_score`. -/
theorem claim_C8_defaults :
    (∀ symptoms : List String, ∀ p ∈ computeSymptomScores symptoms none,
        p.2 = ⟨"moderate", none, 1/2⟩) ∧
    (∀ symptoms : List String, ∀ p ∈ computeSymptomScores symptoms (some []),
        p.2 = ⟨"moderate", none, 1/2⟩) ∧
    (∀ (symptoms : List String) (sevs : List (String × SevInput)) (s : String),
        sevs ≠ [] → s ∈ symptoms → alistFind sevs s = none →
        alistFind (computeSymptomScores symptoms (some sevs)) s =
          some ⟨"moderate", none, 3/5⟩) := by
  have hdef : ∀ symptoms : List String, ∀ p ∈ defaultSymptomScores symptoms,
      p.2 = (⟨"moderate", none, 1/2⟩ : SymInfo) := by
    intro symptoms
    exact foldl_alistUpd_forall (P := fun b => b = (⟨"moderate", none, 1/2⟩ : SymInfo))
      symptoms _ (fun s o => rfl) [] (by simp)
  refine ⟨fun symptoms => hdef symptoms, fun symptoms => hdef symptoms, ?_⟩
  intro symptoms sevs s hne hs hfind
  have hcs : computeSymptomScores symptoms (some sevs) = scoredSymptomScores symptoms sevs := by
    simp [computeSymptomScores, hne]
  rw [hcs]
  unfold scoredSymptomScores
  rw [foldl_alistUpd_find_const symptoms _ s [] hs]
  rw [hfind]
  have : calculate_symptom_score s "moderate" none = 3/5 := by
    with_unfolding_all rfl
  simp [this]

/-- Witness for claim C8: the symptom "cough", missing from a non-empty
severities dict, is scored 0.6. -/
theorem claim_C8_defaults_witness :
    alistFind (computeSymptomScores ["cough"] (some [("fever", ⟨some "severe", some 2⟩)]))
        "cough" = some ⟨"moderate", none, 3/5⟩ :=
  claim_C8_defaults.2.2 ["cough"] [("fever", ⟨some "severe", some 2⟩)] "cough"
    (by simp) (by simp) (by with_unfolding_all decide)

/-- A fold preserves any invariant each step preserves. -/
theorem foldl_invariant {α β : Type} {P : β → Prop} (step : β → α → β) (l : List α)
    (h : ∀ acc a, a ∈ l → P acc → P (step acc a)) (b : β) (hb : P b) :
    P (l.foldl step b) := by
  induction l generalizing b with
  | nil => exact hb
  | cons x t ih =>
    exact ih (fun acc a ha => h acc a (List.mem_cons_of_mem _ ha)) _
      (h b x (List.mem_cons_self _ _) hb)

/-- `medicine_use` entries are invisible to the fuzzy-signal inner loop. -/
theorem addDirectInfos_filter (v : ℕ) (infos : List SourceInfo) :
    ∀ acc, addDirectInfos v (infos.filter SourceInfo.isDirect) acc =
      addDirectInfos v infos acc := by
  induction infos with
  | nil => intro acc; rfl
  | cons i t ih =>
    intro acc
    cases i with
    | directDisease d c =>
      rw [List.filter_cons_of_pos (by rfl)]
      unfold addDirectInfos
      rw [List.foldl_cons, List.foldl_cons]
      exact ih _
    | medicineUse m c =>
      rw [List.filter_cons_of_neg (by simp [SourceInfo.isDirect])]
      unfold addDirectInfos
      rw [List.foldl_cons]
      exact ih _

/-- `medicine_use` entries are invisible to the whole fuzzy signal. -/
theorem method1Scores_filter (mapping : List (String × List SourceInfo))
    (sim : String → String → ℕ) (symptoms : List String) :
    method1Scores (mapping.map (fun kv => (kv.1, kv.2.filter SourceInfo.isDirect)))
        sim symptoms =
      method1Scores mapping sim symptoms := by
  unfold method1Scores
  rw [List.foldl_map]
  apply List.foldl_ext
  intro acc kv hkv
  apply List.foldl_ext
  intro a symptom hs
  by_cases h : 60 < sim (pyLower symptom) kv.1
  · simp [h, addDirectInfos_filter]
  · simp [h]

/-- Claim C4, counterexample: a mapping entry inferred from medicine uses
(stored per-source confidence 0.7) matching a symptom with similarity
100 > 60 contributes nothing: the fuzzy loop only reads `direct_disease`
entries, so the resulting score dict is empty rather than holding a
0.7-weighted score. -/
theorem claim_C4_counterexample :
    simEq (pyLower "fever") "fever" = 100 ∧
    method1Scores [("fever", [.medicineUse "Paracetamol" (7/10)])] simEq ["fever"] = [] := by
  with_unfolding_all decide

/-- Claim C4 (amended): in the fuzzy signal, entries inferred from medicine
uses are ignored entirely (removing them does not change the result); for a
symptom and key with similarity strictly above 60, a `direct_disease` entry
adds (similarity/100) times its stored confidence, and at similarity at most
60 nothing is added. -/
theorem claim_C4_fuzzy (mapping : List (String × List SourceInfo))
    (sim : String → String → ℕ) (symptoms : List String)
    (key disease : String) (conf : ℚ) (s : String) :
    (method1Scores (mapping.map (fun kv => (kv.1, kv.2.filter SourceInfo.isDirect)))
        sim symptoms =
      method1Scores mapping sim symptoms) ∧
    (60 < sim (pyLower s) key →
      method1Scores [(key, [.directDisease disease conf])] sim [s] =
        [(disease, (sim (pyLower s) key : ℚ)/100 * conf)]) ∧
    (sim (pyLower s) key ≤ 60 →
      method1Scores [(key, [.directDisease disease conf])] sim [s] = []) := by
  refine ⟨method1Scores_filter mapping sim symptoms, ?_, ?_⟩
  · intro h
    simp [method1Scores, addDirectInfos, updAdd, alistUpd, h]
  · intro h
    simp [method1Scores, Nat.not_lt.mpr h]

/-- Witness for claim C4: a direct-disease entry at similarity 100 scores
(100/100) * 1.0 = 1. -/
theorem claim_C4_fuzzy_witness :
    method1Scores [("fever", [.directDisease "Malaria" 1])] simEq ["fever"] =
      [("Malaria", 1)] := by
  have h := (claim_C4_fuzzy [] simEq [] "fever" "Malaria" 1 "fever").2.1
    (by with_unfolding_all decide)
  rw [h]
  with_unfolding_all decide

/-- Every generic-fallback entry is one of the four fixed records. -/
theorem generic_mem (symptoms : List String) (r : DiagResult)
    (hr : r ∈ get_generic_diagnosis symptoms) :
    r = commonColdResult ∨ r = gastroenteritisResult ∨ r = generalPainResult ∨
      r = unspecifiedResult := by
  simp only [get_generic_diagnosis] at hr
  split_ifs at hr <;> simp_all <;> tauto

/-- The generic fallback never returns an empty list. -/
theorem generic_ne_nil (symptoms : List String) : get_generic_diagnosis symptoms ≠ [] := by
  simp only [get_generic_diagnosis]
  split_ifs <;> simp_all

/-- The generic fallback returns at most five entries (in fact at most
three). -/
theorem generic_len_le (symptoms : List String) :
    (get_generic_diagnosis symptoms).length ≤ 5 := by
  simp only [get_generic_diagnosis]
  split_ifs <;> simp_all

/-- Claim C10: `diagnose` returns the empty list exactly on an empty symptom
list; every non-empty symptom list produces between 1 and 5 results, the
generic fallback guaranteeing at least one. -/
theorem claim_C10_results (env : DiagEnv) (sevs : Option (List (String × SevInput))) :
    diagnose env [] sevs = [] ∧
    ∀ symptoms : List String, symptoms ≠ [] →
      1 ≤ (diagnose env symptoms sevs).length ∧
        (diagnose env symptoms sevs).length ≤ 5 := by
  constructor
  · simp [diagnose]
  · intro symptoms hne
    unfold diagnose
    rw [if_neg hne]
    by_cases h5 : (diagnoseResults env symptoms sevs).take 5 = []
    · rw [if_pos h5]
      exact ⟨List.length_pos.mpr (generic_ne_nil symptoms), generic_len_le symptoms⟩
    · rw [if_neg h5]
      refine ⟨List.length_pos.mpr h5, ?_⟩
      rw [List.length_take]
      exact min_le_left _ _

/-- Witness for claim C10: a non-empty symptom list in the small fixture
environment yields between 1 and 5 results. -/
theorem claim_C10_results_witness :
    1 ≤ (diagnose envW ["zzz"] none).length ∧ (diagnose envW ["zzz"] none).length ≤ 5 :=
  (claim_C10_results envW none).2 ["zzz"] (by simp)

/-- The canonical-score half of the seeding loop is an independent fold. -/
theorem seedCanonical_fst (ds : List (String × ℚ)) :
    ∀ cs dn, (ds.foldl (fun acc p =>
        (updAdd acc.1 (canonicalize_disease p.1) (min p.2 1),
         alistUpd acc.2 (canonicalize_disease p.1) (fun _ => p.1))) (cs, dn)).1 =
      ds.foldl (fun c p => updAdd c (canonicalize_disease p.1) (min p.2 1)) cs := by
  induction ds with
  | nil => intro cs dn; rfl
  | cons p t ih =>
    intro cs dn
    rw [List.foldl_cons, List.foldl_cons]
    exact ih _ _

/-- `seedCanonical` scores as a one-component fold. -/
theorem seedCanonical_fst_eq (ds : List (String × ℚ)) :
    (seedCanonical ds).1 =
      ds.foldl (fun c p => updAdd c (canonicalize_disease p.1) (min p.2 1)) [] :=
  seedCanonical_fst ds [] []

/-- The display-name half of the seeding loop is an independent fold. -/
theorem seedCanonical_snd (ds : List (String × ℚ)) :
    ∀ cs dn, (ds.foldl (fun acc p =>
        (updAdd acc.1 (canonicalize_disease p.1) (min p.2 1),
         alistUpd acc.2 (canonicalize_disease p.1) (fun _ => p.1))) (cs, dn)).2 =
      ds.foldl (fun d p => alistUpd d (canonicalize_disease p.1) (fun _ => p.1)) dn := by
  induction ds with
  | nil => intro cs dn; rfl
  | cons p t ih =>
    intro cs dn
    rw [List.foldl_cons, List.foldl_cons]
    exact ih _ _

/-- `seedCanonical` display names as a one-component fold. -/
theorem seedCanonical_snd_eq (ds : List (String × ℚ)) :
    (seedCanonical ds).2 =
      ds.foldl (fun d p => alistUpd d (canonicalize_disease p.1) (fun _ => p.1)) [] :=
  seedCanonical_snd ds [] []

/-- A fold of per-key additions leaves unvisited keys alone. -/
theorem foldl_updAdd_find_notin {α : Type} (t : List α) (g : α → String) (v : α → ℚ)
    (k : String) (hk : ∀ a ∈ t, g a ≠ k) :
    ∀ cs, alistFind (t.foldl (fun c q => updAdd c (g q) (v q)) cs) k = alistFind cs k := by
  induction t with
  | nil => intro cs; rfl
  | cons q t ih =>
    intro cs
    rw [List.foldl_cons, ih (fun a ha => hk a (List.mem_cons_of_mem _ ha))]
    exact alistFind_alistUpd_ne _ _ _ _ (fun h => hk q (List.mem_cons_self _ _) h.symm)

/-- Under distinct keys, a fold of per-key additions binds each visited key
to its own added value. -/
theorem foldl_updAdd_find_mem {α : Type} (ds : List α) (g : α → String) (v : α → ℚ) :
    ∀ p, p ∈ ds → (ds.map g).Nodup →
      ∀ cs, alistFind cs (g p) = none →
        alistFind (ds.foldl (fun c q => updAdd c (g q) (v q)) cs) (g p) = some (v p) := by
  induction ds with
  | nil =>
    intro p hp
    cases hp
  | cons q t ih =>
    intro p hp hnd cs hcs
    rw [List.foldl_cons]
    have hq : g q ∉ t.map g := (List.nodup_cons.mp hnd).1
    rcases List.mem_cons.mp hp with rfl | hpt
    · have hnotin : ∀ a ∈ t, g a ≠ g p := by
        intro a ha h
        exact hq (h ▸ List.mem_map_of_mem g ha)
      rw [foldl_updAdd_find_notin t g v (g p) hnotin _]
      rw [updAdd, alistFind_alistUpd_self, hcs]
      simp
    · have hne : g p ≠ g q := by
        intro h
        exact hq (h ▸ List.mem_map_of_mem g hpt)
      apply ih p hpt (List.nodup_cons.mp hnd).2
      rw [updAdd, alistFind_alistUpd_ne _ _ _ _ hne]
      exact hcs

/-- The canonical-score half of the ML merge is the fold of `mlScoreStep`. -/
theorem addMLPreds_fst (preds : List MLPred) :
    ∀ cs dn, (addMLPreds cs dn preds).1 = preds.foldl mlScoreStep cs := by
  induction preds with
  | nil => intro cs dn; rfl
  | cons q t ih =>
    intro cs dn
    cases hf : alistFind cs (canonicalize_disease q.disease) with
    | some v =>
      simp only [addMLPreds, List.foldl_cons, hf, mlScoreStep]
      exact ih _ _
    | none =>
      simp only [addMLPreds, List.foldl_cons, hf, mlScoreStep]
      exact ih _ _

/-- `mlScoreStep` leaves other keys alone. -/
theorem mlScoreStep_find_ne (cs : List (String × ℚ)) (q : MLPred) (k : String)
    (hne : k ≠ canonicalize_disease q.disease) :
    alistFind (mlScoreStep cs q) k = alistFind cs k := by
  unfold mlScoreStep
  cases alistFind cs (canonicalize_disease q.disease) <;>
    exact alistFind_alistUpd_ne _ _ _ _ hne

/-- Folding `mlScoreStep` over predictions with other canonical names leaves
a key alone. -/
theorem foldl_mlScoreStep_find_notin (t : List MLPred) (k : String)
    (hk : ∀ q ∈ t, canonicalize_disease q.disease ≠ k) :
    ∀ cs, alistFind (t.foldl mlScoreStep cs) k = alistFind cs k := by
  induction t with
  | nil => intro cs; rfl
  | cons q t ih =>
    intro cs
    rw [List.foldl_cons, ih (fun a ha => hk a (List.mem_cons_of_mem _ ha))]
    exact mlScoreStep_find_ne _ _ _ (fun h => hk q (List.mem_cons_self _ _) h.symm)

/-- Under distinct prediction canonical names, the merged score of each
prediction is 0.4 * existing + 0.6 * confidence when the canonical name was
present, else 0.6 * confidence. -/
theorem foldl_mlScoreStep_find_mem (preds : List MLPred) :
    ∀ pred, pred ∈ preds →
      (preds.map (fun q => canonicalize_disease q.disease)).Nodup →
      ∀ cs, alistFind (preds.foldl mlScoreStep cs) (canonicalize_disease pred.disease) =
        some (match alistFind cs (canonicalize_disease pred.disease) with
          | some v => 4/10 * v + 6/10 * pred.confidence
          | none => 6/10 * pred.confidence) := by
  induction preds with
  | nil =>
    intro pred hp
    cases hp
  | cons q t ih =>
    intro pred hp hnd cs
    rw [List.foldl_cons]
    have hq : canonicalize_disease q.disease ∉
        t.map (fun q => canonicalize_disease q.disease) := (List.nodup_cons.mp hnd).1
    rcases List.mem_cons.mp hp with rfl | hpt
    · have hnotin : ∀ a ∈ t,
          canonicalize_disease a.disease ≠ canonicalize_disease pred.disease := by
        intro a ha h
        exact hq (h ▸ List.mem_map_of_mem _ ha)
      rw [foldl_mlScoreStep_find_notin t _ hnotin _]
      unfold mlScoreStep
      cases hf : alistFind cs (canonicalize_disease pred.disease) with
      | some v => rw [alistFind_alistUpd_self]
      | none => rw [alistFind_alistUpd_self]
    · have hne : canonicalize_disease pred.disease ≠ canonicalize_disease q.disease := by
        intro h
        exact hq (h ▸ List.mem_map_of_mem _ hpt)
      rw [ih pred hpt (List.nodup_cons.mp hnd).2 _]
      rw [mlScoreStep_find_ne _ _ _ hne]

/-- `sortedCandidates` is descending in the score. -/
theorem sortedCandidates_pairwise (cs : List (String × ℚ)) :
    List.Pairwise (fun a b : String × ℚ => b.2 ≤ a.2) (sortedCandidates cs) := by
  have h := @List.sorted_mergeSort (String × ℚ) (fun a b => decide (b.2 ≤ a.2))
    (fun a b c hab hbc =>
      decide_eq_true (le_trans (of_decide_eq_true hbc) (of_decide_eq_true hab)))
    (fun a b => by
      rcases le_total b.2 a.2 with h | h
      · have hd : decide (b.2 ≤ a.2) = true := decide_eq_true h
        simp [hd]
      · have hd : decide (a.2 ≤ b.2) = true := decide_eq_true h
        simp [hd])
    cs
  exact h.imp (fun hab => of_decide_eq_true hab)

/-- Claim C2: under canonically-distinct inputs, (a) every pattern score is
clamped to 1.0 when seeding `canonical_scores`; (b) every ML prediction
whose canonical disease already has a pattern score merges to exactly
0.4 * existing + 0.6 * ml confidence, and is inserted at 0.6 * ml confidence
otherwise; (c) the candidate list is sorted descending by score; (d) mapping
the enrichment over the top 7 and truncating to 5 equals enriching the top
5. -/
theorem claim_C2_merge (ds : List (String × ℚ)) (preds : List MLPred)
    (hds : (ds.map (fun p => canonicalize_disease p.1)).Nodup)
    (hpr : (preds.map (fun q => canonicalize_disease q.disease)).Nodup) :
    (∀ p ∈ ds,
      alistFind (seedCanonical ds).1 (canonicalize_disease p.1) = some (min p.2 1)) ∧
    (∀ pred ∈ preds,
      alistFind (addMLPreds (seedCanonical ds).1 (seedCanonical ds).2 preds).1
          (canonicalize_disease pred.disease) =
        some (match alistFind (seedCanonical ds).1 (canonicalize_disease pred.disease) with
          | some v => 4/10 * v + 6/10 * pred.confidence
          | none => 6/10 * pred.confidence)) ∧
    List.Pairwise (fun a b : String × ℚ => b.2 ≤ a.2)
      (sortedCandidates (addMLPreds (seedCanonical ds).1 (seedCanonical ds).2 preds).1) ∧
    (∀ (cs : List (String × ℚ)) (f : String × ℚ → DiagResult),
      (((sortedCandidates cs).take 7).map f).take 5 =
        ((sortedCandidates cs).take 5).map f) := by
  refine ⟨?_, ?_, sortedCandidates_pairwise _, ?_⟩
  · intro p hp
    rw [seedCanonical_fst_eq ds]
    exact foldl_updAdd_find_mem ds (fun p => canonicalize_disease p.1)
      (fun p => min p.2 1) p hp hds [] rfl
  · intro pred hp
    rw [addMLPreds_fst preds (seedCanonical ds).1 (seedCanonical ds).2]
    exact foldl_mlScoreStep_find_mem preds pred hp hpr (seedCanonical ds).1
  · intro cs f
    rw [← List.map_take, List.take_take]
    norm_num

/-- Witness for claim C2: the pattern score 1.5 for "GERD" is clamped to
1.0, and the ML prediction "gerd" at confidence 0.5 merges to
0.4 * 1.0 + 0.6 * 0.5 = 0.7 under the shared canonical name. -/
theorem claim_C2_merge_witness :
    alistFind (addMLPreds (seedCanonical [("GERD", 3/2)]).1 (seedCanonical [("GERD", 3/2)]).2
        [⟨"gerd", 1/2, "machine_learning"⟩]).1 "gastroesophageal reflux disease" =
      some (7/10) := by
  have h := (claim_C2_merge [("GERD", 3/2)] [⟨"gerd", 1/2, "machine_learning"⟩]
      (by with_unfolding_all decide) (by with_unfolding_all decide)).2.1
    ⟨"gerd", 1/2, "machine_learning"⟩ (by simp)
  have hc : canonicalize_disease "gerd" = "gastroesophageal reflux disease" := by
    with_unfolding_all decide
  rw [hc] at h
  rw [h]
  with_unfolding_all decide

/-- Key/value invariants survive updates whose new value satisfies them at
the updated key. -/
theorem alistUpd_forall_kv {β : Type} {P : String → β → Prop} (l : List (String × β))
    (k : String) (f : Option β → β) (hl : ∀ p ∈ l, P p.1 p.2)
    (hf : ∀ o, P k (f o)) : ∀ p ∈ alistUpd l k f, P p.1 p.2 := by
  induction l with
  | nil =>
    intro p hp
    rcases (by simpa [alistUpd] using hp) with h
    simp [h, hf]
  | cons q t ih =>
    intro p hp
    by_cases h : k = q.1
    · rcases (by simpa [alistUpd, h] using hp) with h' | h'
      · rw [h']
        exact h ▸ hf _
      · exact hl p (by simp [h'])
    · rcases (by simpa [alistUpd, h] using hp) with h' | h'
      · exact hl p (by simp [h'])
      · exact ih (fun q hq => hl q (by simp [hq])) p h'

/-- A found binding is a member of the association list. -/
theorem alistFind_some_mem {β : Type} (l : List (String × β)) (k : String) (v : β)
    (h : alistFind l k = some v) : (k, v) ∈ l := by
  induction l with
  | nil => simp [alistFind] at h
  | cons p t ih =>
    by_cases hk : k = p.1
    · rw [alistFind, if_pos hk] at h
      have hv := Option.some.inj h
      have hp : (k, v) = p := by
        rw [hk, ← hv]
      rw [hp]
      exact List.mem_cons_self _ _
    · rw [alistFind, if_neg hk] at h
      exact List.mem_cons_of_mem _ (ih h)

/-- A found binding has its key among the keys. -/
theorem alistFind_some_keys {β : Type} (l : List (String × β)) (k : String) (v : β)
    (h : alistFind l k = some v) : k ∈ l.map Prod.fst := by
  have := alistFind_some_mem l k v h
  exact List.mem_map_of_mem Prod.fst this

/-- A present key has a binding. -/
theorem alistFind_isSome_of_mem_keys {β : Type} (l : List (String × β)) (k : String)
    (hk : k ∈ l.map Prod.fst) : ∃ v, alistFind l k = some v := by
  induction l with
  | nil => simp at hk
  | cons p t ih =>
    by_cases h : k = p.1
    · exact ⟨p.2, by rw [alistFind, if_pos h]⟩
    · have hk' : k ∈ t.map Prod.fst := by
        rcases (by simpa using hk) with h' | h'
        · exact absurd h' h
        · simpa using h'
      rcases ih hk' with ⟨v, hv⟩
      exact ⟨v, by rw [alistFind, if_neg h]; exact hv⟩

/-- Updating keeps every old key. -/
theorem mem_keys_alistUpd_of_mem {β : Type} (l : List (String × β)) (k : String)
    (f : Option β → β) (c : String) (hc : c ∈ l.map Prod.fst) :
    c ∈ (alistUpd l k f).map Prod.fst := by
  induction l with
  | nil => simp at hc
  | cons p t ih =>
    rw [List.map_cons] at hc
    simp only [alistUpd]
    by_cases h : k = p.1
    · rw [if_pos h, List.map_cons]
      rcases List.mem_cons.mp hc with h' | h'
      · rw [h', ← h]
        exact List.mem_cons_self _ _
      · exact List.mem_cons_of_mem _ h'
    · rw [if_neg h, List.map_cons]
      rcases List.mem_cons.mp hc with h' | h'
      · rw [h']
        exact List.mem_cons_self _ _
      · exact List.mem_cons_of_mem _ (ih h')

/-- Updating makes the updated key present. -/
theorem mem_keys_alistUpd_self {β : Type} (l : List (String × β)) (k : String)
    (f : Option β → β) : k ∈ (alistUpd l k f).map Prod.fst := by
  induction l with
  | nil => simp [alistUpd]
  | cons p t ih =>
    simp only [alistUpd]
    by_cases h : k = p.1
    · rw [if_pos h, List.map_cons]
      exact List.mem_cons_self _ _
    · rw [if_neg h, List.map_cons]
      exact List.mem_cons_of_mem _ ih

/-- Unfolding one step of the ML-merging loop. -/
theorem addMLPreds_cons (cs : List (String × ℚ)) (dn : List (String × String))
    (q : MLPred) (t : List MLPred) :
    addMLPreds cs dn (q :: t) =
      (match alistFind cs (canonicalize_disease q.disease) with
        | some v =>
          addMLPreds (alistUpd cs (canonicalize_disease q.disease)
            (fun _ => 4/10 * v + 6/10 * q.confidence)) dn t
        | none =>
          addMLPreds (alistUpd cs (canonicalize_disease q.disease)
              (fun _ => 6/10 * q.confidence))
            (alistUpd dn (canonicalize_disease q.disease) (fun _ => q.disease)) t) := by
  cases hf : alistFind cs (canonicalize_disease q.disease) <;>
    simp only [addMLPreds, List.foldl_cons, hf]

/-- Display names recorded by the seeding loop canonicalize back to their
key. -/
theorem seed_dn_canon (ds : List (String × ℚ)) :
    ∀ p ∈ (seedCanonical ds).2, canonicalize_disease p.2 = p.1 := by
  rw [seedCanonical_snd_eq]
  apply foldl_invariant
    (P := fun dn : List (String × String) => ∀ p ∈ dn, canonicalize_disease p.2 = p.1)
    (fun d p => alistUpd d (canonicalize_disease p.1) (fun _ => p.1)) ds
  · intro acc q hq hacc
    exact alistUpd_forall_kv (P := fun k v => canonicalize_disease v = k) acc _ _ hacc
      (fun o => rfl)
  · simp

/-- Display names recorded by the ML-merging loop canonicalize back to their
key. -/
theorem addMLPreds_dn_canon (preds : List MLPred) :
    ∀ cs dn, (∀ p ∈ dn, canonicalize_disease p.2 = p.1) →
      ∀ p ∈ (addMLPreds cs dn preds).2, canonicalize_disease p.2 = p.1 := by
  induction preds with
  | nil => exact fun cs dn h => h
  | cons q t ih =>
    intro cs dn h
    rw [addMLPreds_cons]
    cases hf : alistFind cs (canonicalize_disease q.disease) with
    | some v => exact ih _ _ h
    | none =>
      exact ih _ _ (alistUpd_forall_kv (P := fun k v => canonicalize_disease v = k)
        dn _ _ h (fun o => rfl))

/-- Keys produced by a fold of per-key additions come from the start keys or
the visited keys. -/
theorem foldl_updAdd_keys {α : Type} (ds : List α) (g : α → String) (v : α → ℚ) :
    ∀ cs c, c ∈ ((ds.foldl (fun acc q => updAdd acc (g q) (v q)) cs)).map Prod.fst →
      c ∈ cs.map Prod.fst ∨ c ∈ ds.map g := by
  induction ds with
  | nil =>
    intro cs c h
    exact Or.inl h
  | cons q t ih =>
    intro cs c h
    rw [List.foldl_cons] at h
    rcases ih _ c h with h' | h'
    · rcases mem_keys_alistUpd _ _ _ _ h' with rfl | h''
      · exact Or.inr (by simp)
      · exact Or.inl h''
    · exact Or.inr (by simp [h'])

/-- Keys produced by the ML-merging fold come from the start keys or the
prediction canonical names. -/
theorem foldl_mlScoreStep_keys (preds : List MLPred) :
    ∀ cs c, c ∈ (preds.foldl mlScoreStep cs).map Prod.fst →
      c ∈ cs.map Prod.fst ∨
        c ∈ preds.map (fun q => canonicalize_disease q.disease) := by
  induction preds with
  | nil =>
    intro cs c h
    exact Or.inl h
  | cons q t ih =>
    intro cs c h
    rw [List.foldl_cons] at h
    rcases ih _ c h with h' | h'
    · have h2 : c = canonicalize_disease q.disease ∨ c ∈ cs.map Prod.fst := by
        unfold mlScoreStep at h'
        cases hf : alistFind cs (canonicalize_disease q.disease) <;> rw [hf] at h' <;>
          exact mem_keys_alistUpd _ _ _ _ h'
      rcases h2 with rfl | h2
      · exact Or.inr (by simp)
      · exact Or.inl h2
    · exact Or.inr (by simp [h'])

/-- A fold of per-key updates keeps every key of its accumulator. -/
theorem foldl_alistUpd_keys_mono {α β : Type} (ds : List α) (g : α → String)
    (f : α → Option β → β) (c : String) :
    ∀ acc, c ∈ acc.map Prod.fst →
      c ∈ ((ds.foldl (fun d q => alistUpd d (g q) (f q)) acc)).map Prod.fst := by
  induction ds with
  | nil => exact fun acc h => h
  | cons q t ih =>
    intro acc h
    rw [List.foldl_cons]
    exact ih _ (mem_keys_alistUpd_of_mem _ _ _ _ h)

/-- A fold of per-key updates holds the key of every visited element. -/
theorem foldl_alistUpd_keys_mem {α β : Type} (ds : List α) (g : α → String)
    (f : α → Option β → β) (a : α) (ha : a ∈ ds) :
    ∀ acc, g a ∈ ((ds.foldl (fun d q => alistUpd d (g q) (f q)) acc)).map Prod.fst := by
  induction ds with
  | nil => cases ha
  | cons q t ih =>
    intro acc
    rw [List.foldl_cons]
    rcases List.mem_cons.mp ha with rfl | hat
    · exact foldl_alistUpd_keys_mono t g f (g a) _ (mem_keys_alistUpd_self _ _ _)
    · exact ih hat _

/-- Every canonical-score key of the seeding loop also has a display name. -/
theorem seed_keys_sub (ds : List (String × ℚ)) :
    ∀ c, c ∈ ((seedCanonical ds).1).map Prod.fst →
      c ∈ ((seedCanonical ds).2).map Prod.fst := by
  intro c hc
  rw [seedCanonical_fst_eq] at hc
  rcases foldl_updAdd_keys ds _ _ [] c hc with h | h
  · simp at h
  · rw [seedCanonical_snd_eq]
    rcases List.mem_map.mp h with ⟨p, hp, rfl⟩
    exact foldl_alistUpd_keys_mem ds (fun p => canonicalize_disease p.1) _ p hp []

/-- Every canonical-score key of the ML merge also has a display name. -/
theorem addMLPreds_keys_sub (preds : List MLPred) :
    ∀ cs dn, (∀ c, c ∈ cs.map Prod.fst → c ∈ dn.map Prod.fst) →
      ∀ c, c ∈ ((addMLPreds cs dn preds).1).map Prod.fst →
        c ∈ ((addMLPreds cs dn preds).2).map Prod.fst := by
  induction preds with
  | nil => exact fun cs dn h => h
  | cons q t ih =>
    intro cs dn h c
    rw [addMLPreds_cons]
    cases hf : alistFind cs (canonicalize_disease q.disease) with
    | some v =>
      intro hc
      refine ih _ _ ?_ c hc
      intro c' hc'
      rcases mem_keys_alistUpd _ _ _ _ hc' with rfl | hc''
      · exact h _ (alistFind_some_keys _ _ _ hf)
      · exact h _ hc''
    | none =>
      intro hc
      refine ih _ _ ?_ c hc
      intro c' hc'
      rcases mem_keys_alistUpd _ _ _ _ hc' with rfl | hc''
      · exact mem_keys_alistUpd_self _ _ _
      · exact mem_keys_alistUpd_of_mem _ _ _ _ (h _ hc'')

/-- The method classification, characterized on candidates drawn from the
pattern or ML result sets. -/
theorem methodLabel_spec (c : String) (ml pat : List String) (hc : c ∈ ml ∨ c ∈ pat) :
    ((methodLabel c ml pat = "hybrid") ↔ (c ∈ ml ∧ c ∈ pat)) ∧
    ((methodLabel c ml pat = "machine_learning") ↔ (c ∈ ml ∧ c ∉ pat)) ∧
    ((methodLabel c ml pat = "pattern_matching") ↔ (c ∉ ml ∧ c ∈ pat)) := by
  unfold methodLabel
  split_ifs with h1 h2
  · exact ⟨iff_of_true rfl h1,
      iff_of_false (by decide) (fun h => h.2 h1.2),
      iff_of_false (by decide) (fun h => h.1 h1.1)⟩
  · exact ⟨iff_of_false (by decide) h1,
      iff_of_true rfl ⟨h2, fun hp => h1 ⟨h2, hp⟩⟩,
      iff_of_false (by decide) (fun h => h.1 h2)⟩
  · have hpat : c ∈ pat := hc.resolve_left h2
    exact ⟨iff_of_false (by decide) (fun h => h2 h.1),
      iff_of_false (by decide) (fun h => h2 h.1),
      iff_of_true rfl ⟨h2, hpat⟩⟩

/-- Generic-fallback entries carry no `method` key. -/
theorem generic_method_none (symptoms : List String) (r : DiagResult)
    (hr : r ∈ get_generic_diagnosis symptoms) : r.method = none := by
  rcases generic_mem symptoms r hr with rfl | rfl | rfl | rfl <;> rfl

/-- Claim C6: a result of `diagnose` is labelled "hybrid" exactly when its
canonical disease occurs in both the pattern-matcher scores and the ML
predictions, "machine_learning" when it occurs only in the ML predictions,
and "pattern_matching" when it occurs only in the pattern-matcher scores.
(Generic-fallback entries carry no method label at all, making the claim
vacuous there.) -/
theorem claim_C6_method (env : DiagEnv) (symptoms : List String)
    (sevs : Option (List (String × SevInput))) (r : DiagResult) (m : String)
    (hr : r ∈ diagnose env symptoms sevs) (hm : r.method = some m) :
    ((m = "hybrid") ↔
      (canonicalize_disease r.disease ∈
          (env.mlPredict symptoms).map (fun q => canonicalize_disease q.disease) ∧
        canonicalize_disease r.disease ∈
          (patternScores env symptoms).map (fun p => canonicalize_disease p.1))) ∧
    ((m = "machine_learning") ↔
      (canonicalize_disease r.disease ∈
          (env.mlPredict symptoms).map (fun q => canonicalize_disease q.disease) ∧
        canonicalize_disease r.disease ∉
          (patternScores env symptoms).map (fun p => canonicalize_disease p.1))) ∧
    ((m = "pattern_matching") ↔
      (canonicalize_disease r.disease ∉
          (env.mlPredict symptoms).map (fun q => canonicalize_disease q.disease) ∧
        canonicalize_disease r.disease ∈
          (patternScores env symptoms).map (fun p => canonicalize_disease p.1))) := by
  unfold diagnose at hr
  by_cases hne : symptoms = []
  · rw [if_pos hne] at hr
    cases hr
  rw [if_neg hne] at hr
  by_cases h5 : (diagnoseResults env symptoms sevs).take 5 = []
  · rw [if_pos h5] at hr
    rw [generic_method_none symptoms r hr] at hm
    cases hm
  rw [if_neg h5] at hr
  have hr7 : r ∈ diagnoseResults env symptoms sevs := List.mem_of_mem_take hr
  unfold diagnoseResults at hr7
  rcases List.mem_map.mp hr7 with ⟨cd, hcd7, rfl⟩
  have hcds : cd ∈ sortedCandidates (mergedState env symptoms).1 :=
    List.mem_of_mem_take hcd7
  have hcdm : cd ∈ (mergedState env symptoms).1 := List.mem_mergeSort.mp hcds
  have hkey : cd.1 ∈ ((mergedState env symptoms).1).map Prod.fst :=
    List.mem_map_of_mem Prod.fst hcdm
  have hcover : cd.1 ∈
        (env.mlPredict symptoms).map (fun q => canonicalize_disease q.disease) ∨
      cd.1 ∈ (patternScores env symptoms).map (fun p => canonicalize_disease p.1) := by
    unfold mergedState at hkey
    rw [addMLPreds_fst] at hkey
    rcases foldl_mlScoreStep_keys _ _ _ hkey with h | h
    · right
      rw [seedCanonical_fst_eq] at h
      rcases foldl_updAdd_keys _ _ _ _ _ h with h' | h'
      · simp at h'
      · exact h'
    · left
      exact h
  have hkey2 : cd.1 ∈ ((mergedState env symptoms).2).map Prod.fst := by
    unfold mergedState at hkey ⊢
    exact addMLPreds_keys_sub _ _ _ (seed_keys_sub _) cd.1 hkey
  rcases alistFind_isSome_of_mem_keys _ _ hkey2 with ⟨d, hd⟩
  have hcanon : canonicalize_disease d = cd.1 := by
    have hmem := alistFind_some_mem _ _ _ hd
    exact addMLPreds_dn_canon (env.mlPredict symptoms)
      (seedCanonical (patternScores env symptoms)).1
      (seedCanonical (patternScores env symptoms)).2
      (seed_dn_canon _) (cd.1, d) hmem
  have hm' : some (methodLabel cd.1
      ((env.mlPredict symptoms).map (fun q => canonicalize_disease q.disease))
      ((patternScores env symptoms).map (fun p => canonicalize_disease p.1))) = some m := hm
  have hmeth := Option.some.inj hm'
  have hdis : canonicalize_disease
      (enrichCandidate env (computeSymptomScores symptoms sevs)
        (mergedState env symptoms).2
        ((env.mlPredict symptoms).map (fun q => canonicalize_disease q.disease))
        ((patternScores env symptoms).map (fun p => canonicalize_disease p.1)) cd).disease
      = cd.1 := by
    show canonicalize_disease
      ((alistFind (mergedState env symptoms).2 cd.1).getD (titleStr cd.1)) = cd.1
    rw [hd]
    exact hcanon
  rw [hdis]
  have hms := methodLabel_spec cd.1
    ((env.mlPredict symptoms).map (fun q => canonicalize_disease q.disease))
    ((patternScores env symptoms).map (fun p => canonicalize_disease p.1)) hcover
  rw [hmeth] at hms
  exact hms

/-- Witness for claim C6: in the fixture environment, the "Malaria" result
comes from the classifier only, and its canonical name is indeed among the
ML canonical names and not among the pattern-score names. -/
theorem claim_C6_method_witness :
    canonicalize_disease rW.disease ∈
        (envW.mlPredict ["zzz"]).map (fun q => canonicalize_disease q.disease) ∧
      canonicalize_disease rW.disease ∉
        (patternScores envW ["zzz"]).map (fun p => canonicalize_disease p.1) :=
  (claim_C6_method envW ["zzz"] none rW "machine_learning"
      (by with_unfolding_all decide) rfl).2.1.mp rfl

/-- Value invariants survive updates whose new value satisfies them given
the old one did. -/
theorem alistUpd_forall2 {β : Type} {P : β → Prop} (l : List (String × β)) (k : String)
    (f : Option β → β) (hl : ∀ p ∈ l, P p.2)
    (hf : ∀ o, (∀ b, o = some b → P b) → P (f o)) : ∀ p ∈ alistUpd l k f, P p.2 := by
  induction l with
  | nil =>
    intro p hp
    rcases (by simpa [alistUpd] using hp) with h
    rw [h]
    exact hf none (fun b hb => Option.noConfusion hb)
  | cons q t ih =>
    intro p hp
    by_cases h : k = q.1
    · rcases (by simpa [alistUpd, h] using hp) with h' | h'
      · rw [h']
        exact hf (some q.2) (fun b hb => (Option.some.inj hb) ▸ hl q (List.mem_cons_self _ _))
      · exact hl p (by simp [h'])
    · rcases (by simpa [alistUpd, h] using hp) with h' | h'
      · exact hl p (by simp [h'])
      · exact ih (fun q hq => hl q (by simp [hq])) p h'

/-- Adding a non-negative amount keeps all dict values non-negative. -/
theorem updAdd_nonneg (l : List (String × ℚ)) (k : String) (v : ℚ)
    (hl : ∀ p ∈ l, 0 ≤ p.2) (hv : 0 ≤ v) : ∀ p ∈ updAdd l k v, 0 ≤ p.2 := by
  apply alistUpd_forall2 (P := fun x : ℚ => 0 ≤ x) l k _ hl
  intro o ho
  cases o with
  | none => simpa using hv
  | some b => exact add_nonneg (ho b rfl) hv

/-- Appending a non-negative-confidence entry keeps the mapping invariant. -/
theorem alistUpd_append_conf_nonneg (x : SourceInfo) (hx : 0 ≤ x.conf)
    (l : List (String × List SourceInfo)) (k : String)
    (hl : ∀ kv ∈ l, ∀ i ∈ kv.2, 0 ≤ i.conf) :
    ∀ kv ∈ alistUpd l k (fun o => o.getD [] ++ [x]), ∀ i ∈ kv.2, 0 ≤ i.conf := by
  apply alistUpd_forall2 (P := fun infos : List SourceInfo => ∀ i ∈ infos, 0 ≤ i.conf) l k _ hl
  intro o ho i hi
  cases o with
  | none =>
    rcases (by simpa using hi) with h
    rw [h]
    exact hx
  | some b =>
    rcases List.mem_append.mp hi with h | h
    · exact ho b rfl i h
    · rcases (by simpa using h) with h'
      rw [h']
      exact hx

/-- All confidences stored by `_build_symptom_mapping` are non-negative
(0.7 for medicine-use entries, 1.0 for direct-disease entries). -/
theorem buildSymptomMapping_conf_nonneg (env : DiagEnv) :
    ∀ kv ∈ buildSymptomMapping env, ∀ i ∈ kv.2, 0 ≤ i.conf := by
  have hm1 : ∀ kv ∈ (match env.medicines with
      | none => ([] : List (String × List SourceInfo))
      | some rows =>
        rows.foldl
          (fun (acc : List (String × List SourceInfo)) (row : MedicineRow) =>
            (env.extractConditions (pyLower row.uses)).foldl
              (fun a condition =>
                alistUpd a condition
                  (fun o => o.getD [] ++ [SourceInfo.medicineUse row.name (7/10)]))
              acc)
          []), ∀ i ∈ kv.2, 0 ≤ i.conf := by
    cases env.medicines with
    | none => simp
    | some rows =>
      apply foldl_invariant
        (P := fun m : List (String × List SourceInfo) => ∀ kv ∈ m, ∀ i ∈ kv.2, 0 ≤ i.conf)
      · intro acc row hrow hacc
        apply foldl_invariant
          (P := fun m : List (String × List SourceInfo) => ∀ kv ∈ m, ∀ i ∈ kv.2, 0 ≤ i.conf)
        · intro a condition hcond ha
          exact alistUpd_append_conf_nonneg (.medicineUse row.name (7/10)) (by norm_num [SourceInfo.conf]) a
            condition ha
        · exact hacc
      · simp
  unfold buildSymptomMapping
  cases env.precautionRows with
  | none => exact hm1
  | some rows =>
    apply foldl_invariant
      (P := fun m : List (String × List SourceInfo) => ∀ kv ∈ m, ∀ i ∈ kv.2, 0 ≤ i.conf)
    · intro acc row hrow hacc
      show ∀ kv ∈ (if pyStrip (pyLower row.disease) = "" then acc
          else alistUpd acc (pyStrip (pyLower row.disease))
            (fun o => o.getD [] ++ [.directDisease row.disease 1])), ∀ i ∈ kv.2, 0 ≤ i.conf
      by_cases h : pyStrip (pyLower row.disease) = ""
      · rw [if_pos h]
        exact hacc
      · rw [if_neg h]
        exact alistUpd_append_conf_nonneg (.directDisease row.disease 1) (by norm_num [SourceInfo.conf]) acc _ hacc
    · exact hm1

/-- The fuzzy inner loop keeps scores non-negative. -/
theorem addDirectInfos_nonneg (v : ℕ) (infos : List SourceInfo)
    (hinfos : ∀ i ∈ infos, 0 ≤ i.conf) (acc : List (String × ℚ))
    (hacc : ∀ p ∈ acc, 0 ≤ p.2) : ∀ p ∈ addDirectInfos v infos acc, 0 ≤ p.2 := by
  unfold addDirectInfos
  apply foldl_invariant (P := fun cs : List (String × ℚ) => ∀ p ∈ cs, 0 ≤ p.2) _ infos ?_ acc hacc
  intro a i hi ha
  cases i with
  | directDisease d c =>
    exact updAdd_nonneg _ _ _ ha
      (mul_nonneg (div_nonneg (Nat.cast_nonneg v) (by norm_num)) (hinfos _ hi))
  | medicineUse m c => exact ha

/-- Method 1 produces non-negative scores. -/
theorem method1Scores_nonneg (mapping : List (String × List SourceInfo))
    (sim : String → String → ℕ) (symptoms : List String)
    (hmap : ∀ kv ∈ mapping, ∀ i ∈ kv.2, 0 ≤ i.conf) :
    ∀ p ∈ method1Scores mapping sim symptoms, 0 ≤ p.2 := by
  unfold method1Scores
  apply foldl_invariant (P := fun cs : List (String × ℚ) => ∀ p ∈ cs, 0 ≤ p.2)
  · intro acc kv hkv hacc
    apply foldl_invariant (P := fun cs : List (String × ℚ) => ∀ p ∈ cs, 0 ≤ p.2)
    · intro a symptom hs ha
      show ∀ p ∈ (if 60 < sim (pyLower symptom) kv.1 then
          addDirectInfos (sim (pyLower symptom) kv.1) kv.2 a else a), 0 ≤ p.2
      by_cases h : 60 < sim (pyLower symptom) kv.1
      · rw [if_pos h]
        exact addDirectInfos_nonneg _ _ (hmap kv hkv) a ha
      · rw [if_neg h]
        exact ha
    · exact hacc
  · simp

/-- Method 2 keeps scores non-negative. -/
theorem method2Scores_nonneg (symptoms : List String) (acc0 : List (String × ℚ))
    (h0 : ∀ p ∈ acc0, 0 ≤ p.2) : ∀ p ∈ method2Scores symptoms acc0, 0 ≤ p.2 := by
  unfold method2Scores
  apply foldl_invariant (P := fun cs : List (String × ℚ) => ∀ p ∈ cs, 0 ≤ p.2) _ _ ?_ acc0 h0
  intro acc kv hkv hacc
  show ∀ p ∈ (if symptoms.any (fun symptom => substrB kv.1 (pyLower symptom)) then
      kv.2.foldl (fun a disease => updAdd a disease (8/10)) acc else acc), 0 ≤ p.2
  by_cases h : symptoms.any (fun symptom => substrB kv.1 (pyLower symptom))
  · rw [if_pos h]
    apply foldl_invariant (P := fun cs : List (String × ℚ) => ∀ p ∈ cs, 0 ≤ p.2) _ _ ?_ acc hacc
    intro a disease hd ha
    exact updAdd_nonneg _ _ _ ha (by norm_num)
  · rw [if_neg h]
    exact hacc

/-- Method 3 keeps scores non-negative. -/
theorem method3Scores_nonneg (env : DiagEnv) (symptoms : List String)
    (acc0 : List (String × ℚ)) (h0 : ∀ p ∈ acc0, 0 ≤ p.2) :
    ∀ p ∈ method3Scores env symptoms acc0, 0 ≤ p.2 := by
  unfold method3Scores
  cases env.medicines with
  | none => exact h0
  | some rows =>
    apply foldl_invariant (P := fun cs : List (String × ℚ) => ∀ p ∈ cs, 0 ≤ p.2) _ _ ?_ acc0 h0
    intro acc row hrow hacc
    show ∀ p ∈ (if 0 < ((symptoms.filter
          (fun s => substrB (pyLower s) (pyLower row.side_effects))).length : ℚ) * (3/10) then
        (env.extractDiseasesFromUses (pyLower row.uses)).foldl
          (fun a d => updAdd a d
            (((symptoms.filter
              (fun s => substrB (pyLower s) (pyLower row.side_effects))).length : ℚ) * (3/10)))
          acc
      else acc), 0 ≤ p.2
    by_cases h : 0 < ((symptoms.filter
        (fun s => substrB (pyLower s) (pyLower row.side_effects))).length : ℚ) * (3/10)
    · rw [if_pos h]
      apply foldl_invariant (P := fun cs : List (String × ℚ) => ∀ p ∈ cs, 0 ≤ p.2) _ _ ?_ acc hacc
      intro a d hd ha
      exact updAdd_nonneg _ _ _ ha (le_of_lt h)
    · rw [if_neg h]
      exact hacc

/-- All pattern-matching scores are non-negative. -/
theorem patternScores_nonneg (env : DiagEnv) (symptoms : List String) :
    ∀ p ∈ patternScores env symptoms, 0 ≤ p.2 := by
  unfold patternScores
  exact method3Scores_nonneg env symptoms _
    (method2Scores_nonneg symptoms _
      (method1Scores_nonneg _ env.sim symptoms (buildSymptomMapping_conf_nonneg env)))

/-- Seeded canonical scores are non-negative. -/
theorem seed_nonneg (ds : List (String × ℚ)) (hds : ∀ p ∈ ds, 0 ≤ p.2) :
    ∀ p ∈ (seedCanonical ds).1, 0 ≤ p.2 := by
  rw [seedCanonical_fst_eq]
  apply foldl_invariant (P := fun cs : List (String × ℚ) => ∀ p ∈ cs, 0 ≤ p.2) _ _ ?_ [] (by simp)
  intro acc q hq hacc
  exact updAdd_nonneg _ _ _ hacc (le_min (hds q hq) zero_le_one)

/-- Merged canonical scores are non-negative when the ML confidences are. -/
theorem merged_nonneg (preds : List MLPred) (hml : ∀ q ∈ preds, 0 ≤ q.confidence) :
    ∀ cs, (∀ p ∈ cs, 0 ≤ p.2) → ∀ p ∈ preds.foldl mlScoreStep cs, 0 ≤ p.2 := by
  intro cs hcs
  apply foldl_invariant (P := fun cs : List (String × ℚ) => ∀ p ∈ cs, 0 ≤ p.2) _ _ ?_ cs hcs
  intro acc q hq hacc
  unfold mlScoreStep
  cases hf : alistFind acc (canonicalize_disease q.disease) with
  | some v =>
    have hv : 0 ≤ v := hacc _ (alistFind_some_mem _ _ _ hf)
    apply alistUpd_forall (P := fun x : ℚ => 0 ≤ x) _ _ _ hacc
    intro o
    exact add_nonneg (mul_nonneg (by norm_num) hv) (mul_nonneg (by norm_num) (hml q hq))
  | none =>
    apply alistUpd_forall (P := fun x : ℚ => 0 ≤ x) _ _ _ hacc
    intro o
    exact mul_nonneg (by norm_num) (hml q hq)

/-- The enhanced confidence is clamped to [0, 1] whenever the base
confidence is. -/
theorem enhanced_confidence_bounds (base : ℚ) (ss : List (String × SymInfo)) (d : String)
    (h0 : 0 ≤ base) (h1 : base ≤ 1) :
    0 ≤ (calculate_enhanced_confidence base ss d).1 ∧
      (calculate_enhanced_confidence base ss d).1 ≤ 1 := by
  have hnb : 0 ≤ (if 0 < (enhancedScan d ss).2.1 ∧ 0 < (enhancedScan d ss).1 then
      min ((enhancedScan d ss).1 / (enhancedScan d ss).2.1 * (3/10))
        (min (base * (2/10)) (2/10))
    else 0) := by
    split_ifs with h
    · refine le_min ?_ (le_min ?_ (by norm_num))
      · exact le_of_lt (mul_pos (div_pos h.2 h.1) (by norm_num))
      · exact mul_nonneg h0 (by norm_num)
    · exact le_refl 0
  constructor
  · exact le_min (add_nonneg h0 hnb) zero_le_one
  · exact min_le_right _ _

/-- Claim C1: every result of `diagnose` has confidence in [0, 1], whether
it came from the pattern branch, the classifier branch, both, or the generic
fallback, provided the classifier confidences are non-negative. -/
theorem claim_C1_confidence (env : DiagEnv) (symptoms : List String)
    (sevs : Option (List (String × SevInput)))
    (hml : ∀ q ∈ env.mlPredict symptoms, 0 ≤ q.confidence) :
    ∀ r ∈ diagnose env symptoms sevs, 0 ≤ r.confidence ∧ r.confidence ≤ 1 := by
  intro r hr
  unfold diagnose at hr
  by_cases hne : symptoms = []
  · rw [if_pos hne] at hr
    cases hr
  rw [if_neg hne] at hr
  by_cases h5 : (diagnoseResults env symptoms sevs).take 5 = []
  · rw [if_pos h5] at hr
    rcases generic_mem symptoms r hr with rfl | rfl | rfl | rfl <;>
      exact ⟨by norm_num [commonColdResult, gastroenteritisResult, generalPainResult,
          unspecifiedResult],
        by norm_num [commonColdResult, gastroenteritisResult, generalPainResult,
          unspecifiedResult]⟩
  rw [if_neg h5] at hr
  have hr7 : r ∈ diagnoseResults env symptoms sevs := List.mem_of_mem_take hr
  unfold diagnoseResults at hr7
  rcases List.mem_map.mp hr7 with ⟨cd, hcd7, rfl⟩
  have hcdm : cd ∈ (mergedState env symptoms).1 :=
    List.mem_mergeSort.mp (List.mem_of_mem_take hcd7)
  have hnn : 0 ≤ cd.2 := by
    have hmem : cd ∈ (env.mlPredict symptoms).foldl mlScoreStep
        (seedCanonical (patternScores env symptoms)).1 := by
      unfold mergedState at hcdm
      rw [addMLPreds_fst] at hcdm
      exact hcdm
    exact merged_nonneg (env.mlPredict symptoms) hml
      (seedCanonical (patternScores env symptoms)).1
      (seed_nonneg _ (patternScores_nonneg env symptoms)) cd hmem
  exact enhanced_confidence_bounds (min cd.2 1) (computeSymptomScores symptoms sevs) _
    (le_min hnn zero_le_one) (min_le_right _ _)

/-- Witness for claim C1: the fixture "Malaria" result has confidence 0.3,
inside [0, 1]. -/
theorem claim_C1_confidence_witness :
    0 ≤ rW.confidence ∧ rW.confidence ≤ 1 :=
  claim_C1_confidence envW ["zzz"] none
    (by
      intro q hq
      have hq' : q = ⟨"Malaria", 1/2, "machine_learning"⟩ := by simpa [envW] using hq
      rw [hq']
      norm_num)
    rW (by with_unfolding_all decide)

/-- Every entry kept by method 1 of the recommender is either a literal
match at relevance 1.0 or a fuzzy match strictly above 0.4. -/
theorem recMethod1_mem (sim : String → String → ℕ) (rows : List MedicineRow)
    (disease : String) :
    ∀ e ∈ recMethod1 sim rows disease,
      (∃ row ∈ rows, substrB (pyLower disease) (pyLower row.uses) = true ∧
        e = recEntryOf row 1) ∨
      (∃ row ∈ rows, substrB (pyLower disease) (pyLower row.uses) = false ∧
        e = recEntryOf row ((sim (pyLower disease) (pyLower row.uses) : ℚ)/100) ∧
        2/5 < ((sim (pyLower disease) (pyLower row.uses) : ℚ)/100)) := by
  unfold recMethod1
  apply foldl_invariant
    (P := fun acc : List RecEntry => ∀ e ∈ acc,
      (∃ row ∈ rows, substrB (pyLower disease) (pyLower row.uses) = true ∧
        e = recEntryOf row 1) ∨
      (∃ row ∈ rows, substrB (pyLower disease) (pyLower row.uses) = false ∧
        e = recEntryOf row ((sim (pyLower disease) (pyLower row.uses) : ℚ)/100) ∧
        2/5 < ((sim (pyLower disease) (pyLower row.uses) : ℚ)/100)))
  · intro acc row hrow hacc
    show ∀ e ∈ (if 2/5 < (if substrB (pyLower disease) (pyLower row.uses) = true then (1 : ℚ)
          else (sim (pyLower disease) (pyLower row.uses) : ℚ)/100) then
        acc ++ [recEntryOf row
          (if substrB (pyLower disease) (pyLower row.uses) = true then (1 : ℚ)
            else (sim (pyLower disease) (pyLower row.uses) : ℚ)/100)]
      else acc), _
    by_cases hs : substrB (pyLower disease) (pyLower row.uses) = true
    · rw [if_pos hs, if_pos (show (2 : ℚ)/5 < 1 by norm_num)]
      intro e he
      rcases List.mem_append.mp he with h | h
      · exact hacc e h
      · left
        exact ⟨row, hrow, hs, by simpa using h⟩
    · have hs' : substrB (pyLower disease) (pyLower row.uses) = false := by
        cases hsb : substrB (pyLower disease) (pyLower row.uses) with
        | true => exact absurd hsb hs
        | false => rfl
      rw [if_neg hs]
      by_cases ht : (2 : ℚ)/5 < (sim (pyLower disease) (pyLower row.uses) : ℚ)/100
      · rw [if_pos ht]
        intro e he
        rcases List.mem_append.mp he with h | h
        · exact hacc e h
        · right
          exact ⟨row, hrow, hs', by simpa using h, ht⟩
      · rw [if_neg ht]
        exact hacc
  · simp

/-- Method 2 of the recommender only appends flat-0.7 keyword matches. -/
theorem recMethod2_mem (rows : List MedicineRow) (disease : String)
    (acc0 : List RecEntry) (P : RecEntry → Prop) (h0 : ∀ e ∈ acc0, P e)
    (hnew : ∀ kw ∈ get_disease_keywords disease, ∀ row ∈ rows,
      substrB (pyLower kw) (pyLower row.uses) = true → P (recEntryOf row (7/10))) :
    ∀ e ∈ recMethod2 rows disease acc0, P e := by
  unfold recMethod2
  apply foldl_invariant (P := fun acc : List RecEntry => ∀ e ∈ acc, P e) _ _ ?_ acc0 h0
  intro acc kw hkw hacc
  apply foldl_invariant (P := fun acc : List RecEntry => ∀ e ∈ acc, P e) _ _ ?_ acc hacc
  intro a row hrow ha
  show ∀ e ∈ (if substrB (pyLower kw) (pyLower row.uses) = true ∧
      ¬ (a.any (fun med => med.name == row.name) = true) then
      a ++ [recEntryOf row (7/10)] else a), P e
  by_cases h : substrB (pyLower kw) (pyLower row.uses) = true ∧
      ¬ (a.any (fun med => med.name == row.name) = true)
  · rw [if_pos h]
    intro e he
    rcases List.mem_append.mp he with h' | h'
    · exact ha e h'
    · have he' : e = recEntryOf row (7/10) := by simpa using h'
      rw [he']
      exact hnew kw hkw row hrow h.1
  · rw [if_neg h]
    exact ha

/-- The recommender comparator is transitive. -/
theorem recLe_trans (a b c : RecEntry) (hab : recLe a b = true) (hbc : recLe b c = true) :
    recLe a c = true := by
  have h1 := of_decide_eq_true hab
  have h2 := of_decide_eq_true hbc
  apply decide_eq_true
  rcases h1 with h1 | ⟨e1, x1⟩
  · rcases h2 with h2 | ⟨e2, x2⟩
    · exact Or.inl (lt_trans h2 h1)
    · exact Or.inl (by rw [e2]; exact h1)
  · rcases h2 with h2 | ⟨e2, x2⟩
    · exact Or.inl (by rw [← e1]; exact h2)
    · exact Or.inr ⟨e2.trans e1, le_trans x2 x1⟩

/-- The recommender comparator is total. -/
theorem recLe_total (a b : RecEntry) : (recLe a b || recLe b a) = true := by
  rw [Bool.or_eq_true]
  rcases lt_trichotomy a.relevance_score b.relevance_score with h | h | h
  · right
    exact decide_eq_true (Or.inl h)
  · rcases le_total b.excellent_review a.excellent_review with hx | hx
    · left
      exact decide_eq_true (Or.inr ⟨h.symm, hx⟩)
    · right
      exact decide_eq_true (Or.inr ⟨h, hx⟩)
  · left
    exact decide_eq_true (Or.inl h)

/-- The recommender sort is pairwise descending on
(relevance_score, excellent_review). -/
theorem recommend_sorted_pairwise (l : List RecEntry) :
    List.Pairwise (fun a b : RecEntry =>
        b.relevance_score < a.relevance_score ∨
        (b.relevance_score = a.relevance_score ∧ b.excellent_review ≤ a.excellent_review))
      (l.mergeSort recLe) := by
  have h := @List.sorted_mergeSort RecEntry recLe recLe_trans recLe_total l
  exact h.imp (fun hab => of_decide_eq_true hab)

/-- Claim C9: every recommended medication is either a literal-substring
match at relevance 1.0, a fuzzy match strictly above 0.4, or a keyword-table
match at flat 0.7; the list is sorted descending by
(relevance_score, excellent_review), holds at most 10 entries, and, when the
fuzzy oracle stays below 100 on non-substring rows, every relevance-1.0
entry precedes every lower-relevance entry. -/
theorem claim_C9_recommend (sim : String → String → ℕ) (rows : List MedicineRow)
    (disease : String) (age : ℕ) (gender : String)
    (hsim : ∀ row ∈ rows, substrB (pyLower disease) (pyLower row.uses) = false →
      sim (pyLower disease) (pyLower row.uses) < 100) :
    (∀ e ∈ recommend_medications sim (some rows) disease age gender,
      (∃ row ∈ rows, substrB (pyLower disease) (pyLower row.uses) = true ∧
        e = recEntryOf row 1) ∨
      (∃ row ∈ rows, substrB (pyLower disease) (pyLower row.uses) = false ∧
        e = recEntryOf row ((sim (pyLower disease) (pyLower row.uses) : ℚ)/100) ∧
        2/5 < ((sim (pyLower disease) (pyLower row.uses) : ℚ)/100)) ∨
      (∃ kw ∈ get_disease_keywords disease, ∃ row ∈ rows,
        substrB (pyLower kw) (pyLower row.uses) = true ∧ e = recEntryOf row (7/10))) ∧
    List.Pairwise (fun a b : RecEntry =>
        b.relevance_score < a.relevance_score ∨
        (b.relevance_score = a.relevance_score ∧ b.excellent_review ≤ a.excellent_review))
      (recommend_medications sim (some rows) disease age gender) ∧
    (recommend_medications sim (some rows) disease age gender).length ≤ 10 ∧
    (∀ i j : Fin (recommend_medications sim (some rows) disease age gender).length,
      i < j →
      ((recommend_medications sim (some rows) disease age gender).get j).relevance_score = 1 →
      ((recommend_medications sim (some rows) disease age gender).get i).relevance_score
        = 1) := by
  have hmem : ∀ e ∈ recommend_medications sim (some rows) disease age gender,
      (∃ row ∈ rows, substrB (pyLower disease) (pyLower row.uses) = true ∧
        e = recEntryOf row 1) ∨
      (∃ row ∈ rows, substrB (pyLower disease) (pyLower row.uses) = false ∧
        e = recEntryOf row ((sim (pyLower disease) (pyLower row.uses) : ℚ)/100) ∧
        2/5 < ((sim (pyLower disease) (pyLower row.uses) : ℚ)/100)) ∨
      (∃ kw ∈ get_disease_keywords disease, ∃ row ∈ rows,
        substrB (pyLower kw) (pyLower row.uses) = true ∧ e = recEntryOf row (7/10)) := by
    intro e he
    have he2 : e ∈ recMethod2 rows disease (recMethod1 sim rows disease) := by
      unfold recommend_medications at he
      exact List.mem_mergeSort.mp (List.mem_of_mem_take he)
    refine recMethod2_mem rows disease _
      (P := fun e =>
        (∃ row ∈ rows, substrB (pyLower disease) (pyLower row.uses) = true ∧
          e = recEntryOf row 1) ∨
        (∃ row ∈ rows, substrB (pyLower disease) (pyLower row.uses) = false ∧
          e = recEntryOf row ((sim (pyLower disease) (pyLower row.uses) : ℚ)/100) ∧
          2/5 < ((sim (pyLower disease) (pyLower row.uses) : ℚ)/100)) ∨
        (∃ kw ∈ get_disease_keywords disease, ∃ row ∈ rows,
          substrB (pyLower kw) (pyLower row.uses) = true ∧ e = recEntryOf row (7/10)))
      ?_ ?_ e he2
    · intro e' he'
      rcases recMethod1_mem sim rows disease e' he' with h | h
      · exact Or.inl h
      · exact Or.inr (Or.inl h)
    · intro kw hkw row hrow hs
      exact Or.inr (Or.inr ⟨kw, hkw, row, hrow, hs, rfl⟩)
  have hpw : List.Pairwise (fun a b : RecEntry =>
      b.relevance_score < a.relevance_score ∨
      (b.relevance_score = a.relevance_score ∧ b.excellent_review ≤ a.excellent_review))
      (recommend_medications sim (some rows) disease age gender) := by
    unfold recommend_medications
    exact List.Pairwise.sublist (List.take_sublist _ _) (recommend_sorted_pairwise _)
  have hle1 : ∀ e ∈ recommend_medications sim (some rows) disease age gender,
      e.relevance_score ≤ 1 := by
    intro e he
    rcases hmem e he with ⟨row, hrow, hs, rfl⟩ | ⟨row, hrow, hs, rfl, ht⟩ |
      ⟨kw, hkw, row, hrow, hs, rfl⟩
    · exact le_refl _
    · show (sim (pyLower disease) (pyLower row.uses) : ℚ)/100 ≤ 1
      rw [div_le_one (by norm_num)]
      exact_mod_cast le_of_lt (hsim row hrow hs)
    · show (7 : ℚ)/10 ≤ 1
      norm_num
  refine ⟨hmem, hpw, ?_, ?_⟩
  · unfold recommend_medications
    rw [List.length_take]
    exact min_le_left _ _
  · intro i j hij hj1
    have hR := List.pairwise_iff_get.mp hpw i j hij
    rcases hR with h | ⟨he, hx⟩
    · refine le_antisymm (hle1 _ (List.get_mem _ _ _)) ?_
      rw [hj1] at h
      exact le_of_lt h
    · rw [← he]
      exact hj1

/-- Witness for claim C9: the fixture "Hypertension" recommendation list has
at most 10 entries. -/
theorem claim_C9_recommend_witness :
    (recommend_medications simW (some rowsW) "Hypertension" 45 "Male").length ≤ 10 :=
  (claim_C9_recommend simW rowsW "Hypertension" 45 "Male"
    (by with_unfolding_all decide)).2.2.1

end Chatbot
